import Mathlib

set_option maxRecDepth 8000

/-!
# Verification of the conciliador-efatura matching core

Shallow embedding of the matching/reconciliation engine of the
`conciliador-efatura-poc` repository, and proofs about it.

Conventions of the embedding:
* A SQL row becomes a Lean structure; a table becomes a `List` of rows kept
  in insertion (rowid) order, which is the scan order SQLite uses for the
  unordered `SELECT`s in the sources.
* Monetary amounts and confidence scores are `ℚ` (the Python sources use
  floats; every constant involved is a small decimal).  Division by zero is
  total in `ℚ` (`q / 0 = 0`) where Python would raise; no claim is stated at
  a zero tolerance or zero amount where the two differ.
* Dates are day numbers (`ℤ`); the sources only ever use differences in days.
* The external fuzzy-similarity collaborator
  (`thefuzz.fuzz.partial_ratio(a.lower(), b.lower()) / 100`) is passed as an
  explicit parameter `sim` applied to the lower-cased character sequences;
  the sources treat it as a black box returning a value in `[0,1]`.
* Fallible FastAPI handlers become functions into `Except String _` carrying
  the detail string of the `HTTPException` they raise; the handlers perform
  all checks before any write, so the error case carries no state change.
* A SQL `ORDER BY` becomes a stable merge sort on its key; ties beyond the
  key keep table order (SQLite leaves them unspecified).
* Python's `list.remove(bank)` removes the first element equal to the row;
  rows are dictionaries whose `id` column determines them within one query
  result, so it is modelled as removal of the first element with that id.
-/

namespace Conciliador

/-! ## Text helpers (Python string primitives used by the engines) -/

/-- ASCII lower-casing of one character (`str.lower` on the inputs used). -/
def lowerChar (c : Char) : Char :=
  if 'A' ≤ c ∧ c ≤ 'Z' then Char.ofNat (c.toNat + 32) else c

/-- Python's `s.lower()` as a character sequence. -/
def lowerStr (s : String) : List Char := s.data.map lowerChar

/-- Does the second sequence start with the first? -/
def charsStartWith : List Char → List Char → Bool
  | [], _ => true
  | _ :: _, [] => false
  | a :: as, b :: bs => a = b && charsStartWith as bs

/-- Contiguous-subsequence test on character lists. -/
def charsContain (needle : List Char) : List Char → Bool
  | [] => needle.isEmpty
  | c :: t => charsStartWith needle (c :: t) || charsContain needle t

/-- Python's `needle in hay` on strings. -/
def strIn (needle hay : String) : Bool := charsContain needle.data hay.data

/-- Python truthiness of an optional string column (`None`/`''` are falsy and
are both modelled as the empty string). -/
def pyTruthy (s : String) : Bool := !s.isEmpty

/-- Python's `round(q, 3)`: round half to even at the third decimal. -/
def round3 (q : ℚ) : ℚ :=
  let n : ℚ := q * 1000
  let f : ℤ := n.num.fdiv n.den
  let frac : ℚ := n - (f : ℚ)
  let r : ℤ :=
    if frac > 1/2 then f + 1
    else if frac < 1/2 then f
    else if f % 2 = 0 then f else f + 1
  (r : ℚ) / 1000

/-- The similarity collaborator: normalised `fuzz.partial_ratio` on
lower-cased character sequences. -/
abbrev Sim := List Char → List Char → ℚ

instance {ε α : Type _} [DecidableEq ε] [DecidableEq α] :
    DecidableEq (Except ε α) := fun a b =>
  match a, b with
  | Except.error x, Except.error y =>
    if h : x = y then isTrue (by rw [h])
    else isFalse (by intro hc; cases hc; exact h rfl)
  | Except.ok x, Except.ok y =>
    if h : x = y then isTrue (by rw [h])
    else isFalse (by intro hc; cases hc; exact h rfl)
  | Except.error _, Except.ok _ => isFalse (by intro hc; cases hc)
  | Except.ok _, Except.error _ => isFalse (by intro hc; cases hc)

/-! ## Data model

Row shapes follow the `efatura_records`, `bank_movements` and
`matches`/`matching_results` tables of `core/database.py`; the legacy
`app/database.py` schema uses the aliases `issue_date`/`total`/`issuer`/
`invoice` for `documentDate`/`totalAmount`/`supplierName`/`documentNumber`.
The field `matchRows` models the `matches`/`matching_results` table
(`matches` is a reserved word in Lean). -/

/-- Status of an invoice or bank-movement row (`status` / `matching_status`
column, default `'unmatched'`). -/
inductive RecStatus where
  | unmatched
  | matched
  | confirmed
  deriving DecidableEq, Repr, Inhabited

/-- Status of a match row (`status` column, default `'proposed'`; the
simplified `matches` table has no such column and its rows stay at the
default). -/
inductive MatchStatus where
  | proposed
  | confirmed
  | rejected
  deriving DecidableEq, Repr, Inhabited

/-- An `efatura_records` row. -/
structure Efatura where
  id : Nat
  documentDate : Int
  totalAmount : ℚ
  supplierName : String
  supplierNif : String
  documentNumber : String
  reference : String
  status : RecStatus
  deriving DecidableEq, Repr, Inhabited

/-- A `bank_movements` row. -/
structure BankMovement where
  id : Nat
  movementDate : Int
  amount : ℚ
  description : String
  reference : String
  status : RecStatus
  deriving DecidableEq, Repr, Inhabited

/-- A match row; `matchMethod` carries the `match_type`/`matching_method`
string of the sources. -/
structure MatchRec where
  id : Nat
  efaturaId : Nat
  bankMovementId : Nat
  confidenceScore : ℚ
  matchMethod : String
  status : MatchStatus
  deriving DecidableEq, Repr, Inhabited

/-- The persistent state the matching operations act on: the three tables
plus the `AUTOINCREMENT` counter for match ids. -/
structure DB where
  efaturas : List Efatura
  bankMovements : List BankMovement
  matchRows : List MatchRec
  nextMatchId : Nat
  deriving DecidableEq, Repr, Inhabited

/-- The update `UPDATE efatura_records SET status = ? WHERE id = ?`. -/
def setEfaturaStatus (l : List Efatura) (eid : Nat) (st : RecStatus) :
    List Efatura :=
  l.map fun e => if e.id = eid then { e with status := st } else e

/-- The update `UPDATE bank_movements SET status = ? WHERE id = ?`. -/
def setBankStatus (l : List BankMovement) (bid : Nat) (st : RecStatus) :
    List BankMovement :=
  l.map fun b => if b.id = bid then { b with status := st } else b

/-! ## The `services/matching_engine.py` engine (status-based store) -/

/-- The `MatchingParameters` model of `schemas/matching.py` (relevant fields). -/
structure MatchingParameters where
  dateToleranceDays : ℤ
  amountTolerancePercent : ℚ
  descriptionMinSimilarity : ℚ
  useReferenceMatching : Bool
  deriving DecidableEq, Repr

/-- The schema defaults: 3 days, 1 %, 0.7, reference matching on. -/
def defaultParams : MatchingParameters :=
  { dateToleranceDays := 3
    amountTolerancePercent := 1/100
    descriptionMinSimilarity := 7/10
    useReferenceMatching := true }

/-- The criteria-breakdown dictionary built by `calculate_match_score`. -/
structure MatchingCriteria where
  dateMatched : Bool
  amountMatched : Bool
  descriptionMatched : Bool
  referenceMatched : Bool
  dateDifferenceDays : ℤ
  amountDifference : ℚ
  descriptionSimilarity : ℚ
  deriving DecidableEq, Repr

/-- The description-similarity block of
`matching_engine.calculate_match_score` (lines 141–154): fuzzy similarity of
lower-cased supplier name and description, raised to 1 when the supplier NIF
occurs verbatim in the description. -/
def descSimilarity (sim : Sim) (efatura : Efatura) (bank : BankMovement) : ℚ :=
  if pyTruthy efatura.supplierName ∧ pyTruthy bank.description then
    let similarity1 := sim (lowerStr efatura.supplierName) (lowerStr bank.description)
    if pyTruthy efatura.supplierNif then
      max similarity1 (if strIn efatura.supplierNif bank.description then 1 else 0)
    else similarity1
  else 0

/-- Embeds `matching_engine.calculate_match_score`: weighted sum of date (0.3),
amount (0.4), description (0.2) and reference (0.1) terms, each term gated by
its own matched-test, normalised by the accumulated `max_score`. -/
def calculateMatchScore (sim : Sim) (params : MatchingParameters)
    (efatura : Efatura) (bank : BankMovement) : ℚ × MatchingCriteria :=
  let dateDiff : ℤ := |efatura.documentDate - bank.movementDate|
  let dateMatched : Bool := dateDiff ≤ params.dateToleranceDays
  let dateScore : ℚ :=
    if dateMatched then
      3/10 * (1 - (dateDiff : ℚ) / (params.dateToleranceDays : ℚ))
    else 0
  let bankAmount : ℚ := |bank.amount|
  let amountDiff : ℚ := |efatura.totalAmount - bankAmount|
  let amountTolerance : ℚ := efatura.totalAmount * params.amountTolerancePercent
  let amountMatched : Bool := amountDiff ≤ amountTolerance
  let amountScore : ℚ :=
    if amountMatched then
      if amountDiff = 0 then 4/10 else 4/10 * (1 - amountDiff / amountTolerance)
    else 0
  let descriptionSim : ℚ := descSimilarity sim efatura bank
  let descriptionMatched : Bool := descriptionSim ≥ params.descriptionMinSimilarity
  let descriptionScore : ℚ :=
    if descriptionMatched then 2/10 * descriptionSim else 0
  let referenceMatched : Bool :=
    params.useReferenceMatching ∧ pyTruthy efatura.documentNumber ∧
      pyTruthy bank.reference ∧ strIn efatura.documentNumber bank.reference
  let referenceScore : ℚ := if referenceMatched then 1/10 else 0
  let score : ℚ := dateScore + amountScore + descriptionScore + referenceScore
  let maxScore : ℚ := 3/10 + 4/10 + 2/10 + 1/10
  let finalScore : ℚ := if maxScore > 0 then score / maxScore else 0
  (finalScore,
    { dateMatched := dateMatched
      amountMatched := amountMatched
      descriptionMatched := descriptionMatched
      referenceMatched := referenceMatched
      dateDifferenceDays := dateDiff
      amountDifference := amountDiff
      descriptionSimilarity := descriptionSim })

/-- A spec-side scorer, stated from the spec's words only ("contributes
`weight × similarity` unconditionally (no hard cutoff)"): identical to
`calculateMatchScore` except that the description term is added without the
`description_matched` gate.  Used solely to compare claim C8 against the
code. -/
def calculateMatchScoreSpecC8 (sim : Sim) (params : MatchingParameters)
    (efatura : Efatura) (bank : BankMovement) : ℚ :=
  let dateDiff : ℤ := |efatura.documentDate - bank.movementDate|
  let dateMatched : Bool := dateDiff ≤ params.dateToleranceDays
  let dateScore : ℚ :=
    if dateMatched then
      3/10 * (1 - (dateDiff : ℚ) / (params.dateToleranceDays : ℚ))
    else 0
  let bankAmount : ℚ := |bank.amount|
  let amountDiff : ℚ := |efatura.totalAmount - bankAmount|
  let amountTolerance : ℚ := efatura.totalAmount * params.amountTolerancePercent
  let amountMatched : Bool := amountDiff ≤ amountTolerance
  let amountScore : ℚ :=
    if amountMatched then
      if amountDiff = 0 then 4/10 else 4/10 * (1 - amountDiff / amountTolerance)
    else 0
  let descriptionScore : ℚ := 2/10 * descSimilarity sim efatura bank
  let referenceMatched : Bool :=
    params.useReferenceMatching ∧ pyTruthy efatura.documentNumber ∧
      pyTruthy bank.reference ∧ strIn efatura.documentNumber bank.reference
  let referenceScore : ℚ := if referenceMatched then 1/10 else 0
  let score : ℚ := dateScore + amountScore + descriptionScore + referenceScore
  score / (3/10 + 4/10 + 2/10 + 1/10)

/-- One iteration of the best-candidate scan of `run_matching_process`
(lines 38–44): keep a candidate that strictly improves the running best and
clears the 0.5 threshold. -/
def findBestSbStep (sim : Sim) (params : MatchingParameters)
    (efatura : Efatura) (best : Option (BankMovement × ℚ × MatchingCriteria))
    (bank : BankMovement) : Option (BankMovement × ℚ × MatchingCriteria) :=
  let sc := calculateMatchScore sim params efatura bank
  let bestScore : ℚ := match best with
    | none => 0
    | some (_, s, _) => s
  if sc.1 > bestScore ∧ sc.1 ≥ 1/2 then some (bank, sc.1, sc.2) else best

/-- The best-candidate scan of `run_matching_process` (lines 35–44). -/
def findBestSb (sim : Sim) (params : MatchingParameters) (efatura : Efatura)
    (banks : List BankMovement) :
    Option (BankMovement × ℚ × MatchingCriteria) :=
  banks.foldl (findBestSbStep sim params efatura) none

/-- Insert one `matching_results` row and mark both linked records
`matched`; this is the match-creation effect shared by
`run_matching_process` (insert + two status updates) and the simplified
engine's `create_match`. -/
def createAndMark (db : DB) (eid bid : Nat) (score : ℚ) (method : String) :
    DB :=
  { efaturas := setEfaturaStatus db.efaturas eid .matched
    bankMovements := setBankStatus db.bankMovements bid .matched
    matchRows := db.matchRows ++
      [{ id := db.nextMatchId
         efaturaId := eid
         bankMovementId := bid
         confidenceScore := score
         matchMethod := method
         status := .proposed }]
    nextMatchId := db.nextMatchId + 1 }

/-- Accumulator of the `run_matching_process` loop: evolving store, the
in-memory unmatched `bank_movements` list (shrunk by `.remove`) and the
`matches_created` counter. -/
structure RunAcc where
  db : DB
  banks : List BankMovement
  matchesCreated : Nat

/-- One iteration of the outer loop of `run_matching_process`: pick the best
bank movement, and if any cleared the threshold insert the match
(`matching_method` `'fuzzy'` below 0.95, else `'exact'`; status
`'proposed'`), set both statuses to `'matched'` and remove the movement from
the in-memory list. -/
def processInvoice (sim : Sim) (params : MatchingParameters) (acc : RunAcc)
    (efatura : Efatura) : RunAcc :=
  match findBestSb sim params efatura acc.banks with
  | none => acc
  | some (bank, score, _criteria) =>
    { db := createAndMark acc.db efatura.id bank.id score
        (if score < 95/100 then "fuzzy" else "exact")
      banks := acc.banks.eraseP (fun b => b.id = bank.id)
      matchesCreated := acc.matchesCreated + 1 }

/-- Embeds `matching_engine.run_matching_process`: snapshot the unmatched
e-faturas and bank movements, then run the greedy loop.  Returns the final
store and `matches_created`. -/
def runMatchingProcess (sim : Sim) (params : MatchingParameters) (db : DB) :
    DB × Nat :=
  let efaturaRecords := db.efaturas.filter (fun e => e.status = .unmatched)
  let bankMovements := db.bankMovements.filter (fun b => b.status = .unmatched)
  let acc := efaturaRecords.foldl (processInvoice sim params)
    { db := db, banks := bankMovements, matchesCreated := 0 }
  (acc.db, acc.matchesCreated)

/-- Handler `PUT /results/{id}/confirm` (`api/endpoints/matching.py`): 404 when the
match row is missing; otherwise set the match `'confirmed'` and both linked
records `'confirmed'`.  The current status of the match is not checked. -/
def confirmMatch (db : DB) (mid : Nat) : Except String DB :=
  match db.matchRows.find? (fun m => m.id = mid) with
  | none => Except.error ("Matching result not found")
  | some m =>
    Except.ok
      { db with
        matchRows := db.matchRows.map
          (fun r => if r.id = mid then { r with status := .confirmed } else r)
        efaturas := setEfaturaStatus db.efaturas m.efaturaId .confirmed
        bankMovements := setBankStatus db.bankMovements m.bankMovementId .confirmed }

/-- Handler `PUT /results/{id}/reject` (`api/endpoints/matching.py`): 404 when the
match row is missing; otherwise set the match `'rejected'` and both linked
records back to `'unmatched'`.  The current status of the match is not
checked. -/
def rejectMatch (db : DB) (mid : Nat) : Except String DB :=
  match db.matchRows.find? (fun m => m.id = mid) with
  | none => Except.error ("Matching result not found")
  | some m =>
    Except.ok
      { db with
        matchRows := db.matchRows.map
          (fun r => if r.id = mid then { r with status := .rejected } else r)
        efaturas := setEfaturaStatus db.efaturas m.efaturaId .unmatched
        bankMovements := setBankStatus db.bankMovements m.bankMovementId .unmatched }

/-! ## The `services/sqlite_matching_engine.py` engine
(`SimplifiedMatchingEngine`, default tolerances 3 days and 1 %) -/

/-- The `ORDER BY date_diff ASC, amount_diff ASC` key of
`find_potential_matches`, as a total Boolean preorder for sorting. -/
def sqliteCandLE (efatura : Efatura) (a b : BankMovement) : Bool :=
  let da : ℤ := |a.movementDate - efatura.documentDate|
  let dbB : ℤ := |b.movementDate - efatura.documentDate|
  let ra : ℚ := |a.amount - efatura.totalAmount| / efatura.totalAmount
  let rb : ℚ := |b.amount - efatura.totalAmount| / efatura.totalAmount
  da < dbB ∨ (da = dbB ∧ ra ≤ rb)

/-- Embeds `SimplifiedMatchingEngine.find_potential_matches`: bank movements with
status `'unmatched'`, movement date within ± `tolDays` of the e-fatura's
date and amount between `total × (1 − tolPct)` and `total × (1 + tolPct)`
(the raw signed amount — no absolute value), ordered by date difference then
relative amount difference, first 10 rows.  A missing e-fatura id (an
`IndexError` in Python) is modelled as an empty candidate list. -/
def findPotentialMatches (tolDays : ℤ) (tolPct : ℚ) (db : DB)
    (efaturaId : Nat) : List BankMovement :=
  match db.efaturas.find? (fun e => e.id = efaturaId) with
  | none => []
  | some efatura =>
    let dateMin := efatura.documentDate - tolDays
    let dateMax := efatura.documentDate + tolDays
    let amountMin := efatura.totalAmount * (1 - tolPct)
    let amountMax := efatura.totalAmount * (1 + tolPct)
    let cands := db.bankMovements.filter (fun bm =>
      dateMin ≤ bm.movementDate ∧ bm.movementDate ≤ dateMax ∧
      amountMin ≤ bm.amount ∧ bm.amount ≤ amountMax ∧
      bm.status = .unmatched)
    (cands.mergeSort (sqliteCandLE efatura)).take 10

/-- Embeds `SimplifiedMatchingEngine.calculate_match_score`: date proximity (0.4),
amount proximity (0.4) on the signed amounts, reference substring bonus
(0.2), rounded to three decimals. -/
def sqliteCalculateMatchScore (tolDays : ℤ) (tolPct : ℚ) (efatura : Efatura)
    (bank : BankMovement) : ℚ :=
  let dateDiff : ℤ := |efatura.documentDate - bank.movementDate|
  let dateScore : ℚ := max 0 (1 - (dateDiff : ℚ) / (tolDays : ℚ)) * (4/10)
  let amountDiff : ℚ := |efatura.totalAmount - bank.amount|
  let amountRatio : ℚ :=
    if efatura.totalAmount > 0 then amountDiff / efatura.totalAmount else 1
  let amountScore : ℚ := max 0 (1 - amountRatio / tolPct) * (4/10)
  let referenceScore : ℚ :=
    if pyTruthy efatura.reference ∧ pyTruthy bank.reference ∧
        (strIn efatura.reference bank.reference ∨
         strIn bank.reference efatura.reference) then 2/10 else 0
  round3 (dateScore + amountScore + referenceScore)

/-- Embeds `SimplifiedMatchingEngine.create_match`: insert a `matches` row
(`match_type` `'automatic'` at confidence ≥ 0.8, else `'suggested'`) and set
both linked records to `'matched'`.  Returns the new row id. -/
def sqliteCreateMatch (db : DB) (eid bid : Nat) (confidenceScore : ℚ) :
    DB × Nat :=
  (createAndMark db eid bid confidenceScore
      (if confidenceScore ≥ 8/10 then "automatic" else "suggested"),
    db.nextMatchId)

/-- The run summary of `auto_match_all` (`unmatchedCount` is the
`'unmatched'` key). -/
structure AutoMatchResults where
  totalProcessed : Nat
  matched : Nat
  suggested : Nat
  unmatchedCount : Nat
  deriving DecidableEq, Repr

/-- One iteration of the `auto_match_all` loop: query the candidates for the
snapshot e-fatura against the current store, score the first candidate, and
create the match when the score reaches 0.5 (counted `matched` at ≥ 0.8,
`suggested` otherwise). -/
def autoMatchStep (acc : DB × AutoMatchResults) (efatura : Efatura) :
    DB × AutoMatchResults :=
  let (db, res) := acc
  match findPotentialMatches 3 (1/100) db efatura.id with
  | [] => (db, { res with unmatchedCount := res.unmatchedCount + 1 })
  | bestMatch :: _ =>
    let score := sqliteCalculateMatchScore 3 (1/100) efatura bestMatch
    if score ≥ 8/10 then
      ((sqliteCreateMatch db efatura.id bestMatch.id score).1,
        { res with matched := res.matched + 1 })
    else if score ≥ 1/2 then
      ((sqliteCreateMatch db efatura.id bestMatch.id score).1,
        { res with suggested := res.suggested + 1 })
    else (db, { res with unmatchedCount := res.unmatchedCount + 1 })

/-- Embeds `SimplifiedMatchingEngine.auto_match_all`: iterate over the snapshot of
unmatched e-faturas, matching each against its current first candidate. -/
def autoMatchAll (db : DB) : DB × AutoMatchResults :=
  let unmatchedEfaturas := db.efaturas.filter (fun e => e.status = .unmatched)
  unmatchedEfaturas.foldl autoMatchStep
    (db, { totalProcessed := unmatchedEfaturas.length
           matched := 0, suggested := 0, unmatchedCount := 0 })

/-- Handler `POST /manual-match` (`api/endpoints/simple_matching.py`): 404 unless
both records exist with status `'unmatched'`; on success the match is
created through the engine with the pair's *computed* score (both checks
precede any write).  Returns the store and the new match id. -/
def createManualMatch (db : DB) (eid bid : Nat) :
    Except String (DB × Nat) :=
  match db.efaturas.find? (fun e => e.id = eid ∧ e.status = .unmatched) with
  | none => Except.error ("E-fatura record not found or already matched")
  | some efatura =>
    match db.bankMovements.find?
        (fun b => b.id = bid ∧ b.status = .unmatched) with
    | none => Except.error ("Bank movement not found or already matched")
    | some bank =>
      let confidenceScore := sqliteCalculateMatchScore 3 (1/100) efatura bank
      Except.ok (sqliteCreateMatch db eid bid confidenceScore)

/-- Handler `DELETE /match/{id}` (`api/endpoints/simple_matching.py`): 404 when the
match row is missing; otherwise set both linked records back to
`'unmatched'` and physically delete the match row. -/
def deleteMatch (db : DB) (mid : Nat) : Except String DB :=
  match db.matchRows.find? (fun m => m.id = mid) with
  | none => Except.error ("Match not found")
  | some m =>
    Except.ok
      { db with
        efaturas := setEfaturaStatus db.efaturas m.efaturaId .unmatched
        bankMovements := setBankStatus db.bankMovements m.bankMovementId .unmatched
        matchRows := db.matchRows.filter (fun r => ¬ r.id = mid) }

/-! ## The `app/matching.py` engine (match-derived store; record statuses are
derived from active match rows by `app/database.py`) -/

/-- Embeds `app/database.py::get_unmatched_efatura`: e-faturas with no active
(status ≠ `'rejected'`) match row, ordered by issue date descending. -/
def getUnmatchedEfatura (db : DB) : List Efatura :=
  (db.efaturas.filter (fun e =>
      ¬ db.matchRows.any (fun m => m.efaturaId = e.id ∧ m.status ≠ .rejected))).mergeSort
    (fun a b => b.documentDate ≤ a.documentDate)

/-- Embeds `app/database.py::get_unmatched_bank_movements`. -/
def getUnmatchedBankMovements (db : DB) : List BankMovement :=
  (db.bankMovements.filter (fun b =>
      ¬ db.matchRows.any (fun m => m.bankMovementId = b.id ∧ m.status ≠ .rejected))).mergeSort
    (fun a b => b.movementDate ≤ a.movementDate)

/-- Embeds `app/matching.py::calculate_match_score` (defaults: 5 days, 1 %):
amount term (0.4) with an exact-match window of 0.01 and an early
`return 0.0` outside `total × tolerance`; date term (0.3); fuzzy
issuer/description term (0.3) with a +0.1 capped bonus when the invoice
number occurs in the description. -/
def mpCalculateMatchScore (sim : Sim) (toleranceDays : ℤ)
    (amountTolerance : ℚ) (efatura : Efatura) (bank : BankMovement) : ℚ :=
  let efaturaAmount : ℚ := |efatura.totalAmount|
  let bankAmount : ℚ := |bank.amount|
  let amountDiff : ℚ := |efaturaAmount - bankAmount|
  let amountTerm : Option ℚ :=
    if amountDiff < 1/100 then some (4/10)
    else if amountDiff ≤ efaturaAmount * amountTolerance then
      some (4/10 * (1 - amountDiff / (efaturaAmount * amountTolerance)))
    else none
  match amountTerm with
  | none => 0
  | some amountScore =>
    let daysDiff : ℤ := |efatura.documentDate - bank.movementDate|
    let dateScore : ℚ :=
      if daysDiff = 0 then 3/10
      else if daysDiff ≤ toleranceDays then
        3/10 * (1 - (daysDiff : ℚ) / (toleranceDays : ℚ))
      else 0
    let score1 := amountScore + dateScore
    if pyTruthy efatura.supplierName ∧ pyTruthy bank.description then
      let similarity := sim (lowerStr efatura.supplierName) (lowerStr bank.description)
      let score2 := score1 + 3/10 * similarity
      if strIn efatura.documentNumber bank.description then
        min (score2 + 1/10) 1
      else score2
    else score1

/-- The best-candidate scan of `run_automatic_matching` (lines 67–80): skip
bank movements already claimed in this run (`used_bank_ids`), keep the first
strict improvement that reaches `min_confidence`. -/
def mpFindBest (sim : Sim) (minConfidence : ℚ) (banks : List BankMovement)
    (used : List Nat) (efatura : Efatura) : Option (BankMovement × ℚ) :=
  banks.foldl
    (fun best bank =>
      if bank.id ∈ used then best
      else
        let score := mpCalculateMatchScore sim 5 (1/100) efatura bank
        let bestScore : ℚ := match best with
          | none => 0
          | some (_, s) => s
        if score > bestScore ∧ score ≥ minConfidence then some (bank, score)
        else best)
    none

/-- Embeds `app/database.py::create_match`: insert a `matching_results` row with
the given confidence and match type; the status column defaults to
`'proposed'` and no record status is touched (this store derives
unmatchedness from active match rows). -/
def mpCreateMatch (db : DB) (eid bid : Nat) (confidence : ℚ)
    (matchType : String) : DB × Nat :=
  ({ db with
      matchRows := db.matchRows ++
        [{ id := db.nextMatchId
           efaturaId := eid
           bankMovementId := bid
           confidenceScore := confidence
           matchMethod := matchType
           status := .proposed }]
      nextMatchId := db.nextMatchId + 1 },
    db.nextMatchId)

/-- The run summary of `run_automatic_matching`. -/
structure MpRunResults where
  matchesCreated : Nat
  efaturaProcessed : Nat
  bankProcessed : Nat
  deriving DecidableEq, Repr

/-- Embeds `app/matching.py::run_automatic_matching` (default
`min_confidence = 0.5`): greedy pass over the derived unmatched sets,
tracking claimed bank ids in `used_bank_ids`; every created match is tagged
`'automatic'`. -/
def runAutomaticMatching (sim : Sim) (minConfidence : ℚ) (db : DB) :
    DB × MpRunResults :=
  let efaturaRecords := getUnmatchedEfatura db
  let bankMovements := getUnmatchedBankMovements db
  let final := efaturaRecords.foldl
    (fun (acc : DB × List Nat × Nat) efatura =>
      let (db', used, count) := acc
      match mpFindBest sim minConfidence bankMovements used efatura with
      | none => acc
      | some (bank, score) =>
        ((mpCreateMatch db' efatura.id bank.id score ("automatic")).1,
          bank.id :: used, count + 1))
    (db, ([] : List Nat), 0)
  (final.1,
    { matchesCreated := final.2.2
      efaturaProcessed := efaturaRecords.length
      bankProcessed := bankMovements.length })

/-! ## Properties of a store -/

/-- Some active (non-rejected) match row references the e-fatura id. -/
def ActiveRefE (db : DB) (eid : Nat) : Prop :=
  ∃ m ∈ db.matchRows, m.status ≠ .rejected ∧ m.efaturaId = eid

/-- Some active (non-rejected) match row references the bank-movement id. -/
def ActiveRefB (db : DB) (bid : Nat) : Prop :=
  ∃ m ∈ db.matchRows, m.status ≠ .rejected ∧ m.bankMovementId = bid

/-- 1:1 exclusivity: no two active match rows share an e-fatura id or a
bank-movement id. -/
def Exclusive (db : DB) : Prop :=
  db.matchRows.Pairwise (fun m1 m2 =>
    m1.status ≠ .rejected → m2.status ≠ .rejected →
      m1.efaturaId ≠ m2.efaturaId ∧ m1.bankMovementId ≠ m2.bankMovementId)

instance (db : DB) : Decidable (Exclusive db) := by
  unfold Exclusive
  infer_instance

/-- Record statuses cover the active match rows: a record referenced by an
active match row is not `'unmatched'`. -/
def StatusSync (db : DB) : Prop :=
  ∀ m ∈ db.matchRows, m.status ≠ .rejected →
    (∀ e ∈ db.efaturas, e.id = m.efaturaId → e.status ≠ .unmatched) ∧
    (∀ b ∈ db.bankMovements, b.id = m.bankMovementId → b.status ≠ .unmatched)

/-- Well-formedness of the stored ids (primary keys are unique; the
`AUTOINCREMENT` counter is ahead of every stored match id). -/
def IdsOK (db : DB) : Prop :=
  (db.efaturas.map (·.id)).Nodup ∧
  (db.bankMovements.map (·.id)).Nodup ∧
  (db.matchRows.map (·.id)).Nodup ∧
  ∀ m ∈ db.matchRows, m.id < db.nextMatchId

/-- The inductive invariant of the status-based store. -/
def Inv (db : DB) : Prop := Exclusive db ∧ StatusSync db ∧ IdsOK db

/-- Invariant carried through the `run_matching_process` fold: the store
satisfies `Inv`, every bank movement still in the in-memory pool is backed
by an unmatched row of the store (with no duplicate pool ids), and every
invoice still to be processed is backed by an unmatched row (with no
duplicate ids among the pending invoices). -/
def SbRunGood (acc : RunAcc) (rem : List Efatura) : Prop :=
  Inv acc.db ∧
  (∀ b ∈ acc.banks, ∃ b0 ∈ acc.db.bankMovements,
      b0.id = b.id ∧ b0.status = RecStatus.unmatched) ∧
  (acc.banks.map (·.id)).Nodup ∧
  (∀ e ∈ rem, ∃ e0 ∈ acc.db.efaturas,
      e0.id = e.id ∧ e0.status = RecStatus.unmatched) ∧
  (rem.map (·.id)).Nodup

/-- Invariant carried through the `auto_match_all` fold. -/
def SqRunGood (acc : DB × AutoMatchResults) (rem : List Efatura) : Prop :=
  Inv acc.1 ∧
  (∀ e ∈ rem, ∃ e0 ∈ acc.1.efaturas,
      e0.id = e.id ∧ e0.status = RecStatus.unmatched) ∧
  (rem.map (·.id)).Nodup

/-- A store as handed over by the ingestion collaborator: no match rows yet,
and unique record ids. -/
def InitDB (db : DB) : Prop :=
  db.matchRows = [] ∧
  (db.efaturas.map (·.id)).Nodup ∧
  (db.bankMovements.map (·.id)).Nodup

instance (db : DB) : Decidable (InitDB db) := by
  unfold InitDB
  infer_instance

/-- One matching operation on the status-based store, with the lifecycle
operations (confirm / reject / delete) restricted to existing,
non-rejected match rows. -/
inductive Step : DB → DB → Prop where
  | autoRunSb (sim : Sim) (params : MatchingParameters) (db : DB) :
      Step db (runMatchingProcess sim params db).1
  | autoRunSq (db : DB) : Step db (autoMatchAll db).1
  | manual (db : DB) (eid bid : Nat) (db' : DB) (mid : Nat) :
      createManualMatch db eid bid = Except.ok (db', mid) → Step db db'
  | confirmStep (db : DB) (mid : Nat) (m : MatchRec) (db' : DB) :
      db.matchRows.find? (fun r => r.id = mid) = some m →
      m.status ≠ .rejected → confirmMatch db mid = Except.ok db' →
      Step db db'
  | rejectStep (db : DB) (mid : Nat) (m : MatchRec) (db' : DB) :
      db.matchRows.find? (fun r => r.id = mid) = some m →
      m.status ≠ .rejected → rejectMatch db mid = Except.ok db' →
      Step db db'
  | deleteStep (db : DB) (mid : Nat) (m : MatchRec) (db' : DB) :
      db.matchRows.find? (fun r => r.id = mid) = some m →
      m.status ≠ .rejected → deleteMatch db mid = Except.ok db' →
      Step db db'

/-- States reachable from `db0` by the guarded matching operations. -/
inductive ReachableFrom (db0 : DB) : DB → Prop where
  | refl : ReachableFrom db0 db0
  | tail {db1 db2 : DB} :
      ReachableFrom db0 db1 → Step db1 db2 → ReachableFrom db0 db2

/-- The candidate ordering claimed by the spec for `find_potential_matches`:
absolute amount difference ascending, then absolute date difference
ascending, then id ascending. -/
def specCandLE (efatura : Efatura) (a b : BankMovement) : Bool :=
  let ra : ℚ := |a.amount - efatura.totalAmount|
  let rb : ℚ := |b.amount - efatura.totalAmount|
  let da : ℤ := |a.movementDate - efatura.documentDate|
  let dbB : ℤ := |b.movementDate - efatura.documentDate|
  ra < rb ∨ (ra = rb ∧ (da < dbB ∨ (da = dbB ∧ a.id ≤ b.id)))

/-! ## Concrete stores for witnesses and counterexamples -/

/-- Sample similarity collaborator: 1 on identical lower-cased strings,
0 otherwise (the value `fuzz.partial_ratio` takes on equal strings and on
strings with no character in common). -/
def simEq : Sim := fun a b => if a = b then 1 else 0

/-- Sample similarity collaborator returning 0.4 (a typical
`fuzz.partial_ratio` value for weakly related strings). -/
def simPoint4 : Sim := fun _ _ => 2/5

/-- An e-fatura row with the given id, date, amount and status, text fields
empty. -/
def plainEf (id : Nat) (documentDate : Int) (totalAmount : ℚ)
    (status : RecStatus) : Efatura :=
  { id := id, documentDate := documentDate, totalAmount := totalAmount
    supplierName := "", supplierNif := "", documentNumber := ""
    reference := "", status := status }

/-- A bank-movement row with the given id, date, amount and status, text
fields empty. -/
def plainBm (id : Nat) (movementDate : Int) (amount : ℚ)
    (status : RecStatus) : BankMovement :=
  { id := id, movementDate := movementDate, amount := amount
    description := "", reference := "", status := status }

/-- C1: one e-fatura and three bank movements, all unmatched. -/
def c1db0 : DB :=
  { efaturas := [plainEf 1 0 100 .unmatched]
    bankMovements :=
      [plainBm 1 0 100 .unmatched, plainBm 2 0 100 .unmatched,
       plainBm 3 0 100 .unmatched]
    matchRows := []
    nextMatchId := 0 }

/-- C1: the operation sequence manual-match, reject, manual-match,
re-reject (of the already-rejected match 0), manual-match — each an
unmodified endpoint operation. -/
def c1trace : Except String DB := do
  let r1 ← createManualMatch c1db0 1 1
  let db2 ← rejectMatch r1.1 0
  let r3 ← createManualMatch db2 1 2
  let db4 ← rejectMatch r3.1 0
  let r5 ← createManualMatch db4 1 3
  pure r5.1

/-- C1: the store at the end of `c1trace`. -/
def c1finalDB : DB := c1trace.toOption.getD default

/-- C2: invoice of 100, same-day transaction of −5 with identical supplier
name and description and the invoice number in the transaction reference. -/
def c2sbEf : Efatura :=
  { id := 1, documentDate := 0, totalAmount := 100
    supplierName := "acme", supplierNif := "", documentNumber := "inv1"
    reference := "", status := .unmatched }

/-- C2: the −5 transaction paired with `c2sbEf`. -/
def c2sbBm : BankMovement :=
  { id := 1, movementDate := 0, amount := -5
    description := "acme", reference := "inv1", status := .unmatched }

/-- C2 (supabase engine): the store holding `c2sbEf` and `c2sbBm`. -/
def c2sbDB : DB :=
  { efaturas := [c2sbEf]
    bankMovements := [c2sbBm]
    matchRows := []
    nextMatchId := 0 }

/-- C2 (matching.py engine): invoice of 100 against a transaction of −100 on
the same day with matching description. -/
def c2mpDB : DB :=
  { efaturas :=
      [{ id := 1, documentDate := 0, totalAmount := 100
         supplierName := "acme", supplierNif := "", documentNumber := "f1"
         reference := "", status := .unmatched }]
    bankMovements :=
      [{ id := 1, movementDate := 0, amount := -100
         description := "acme", reference := "", status := .unmatched }]
    matchRows := []
    nextMatchId := 0 }

/-- C3: two invoices (100 and 101) and two movements (101 on day 0, 100 on
day 1); the first run matches invoice 2 to movement 1 and leaves invoice 1
unmatched, the second run then matches invoice 1 to movement 2. -/
def c3db0 : DB :=
  { efaturas := [plainEf 1 0 100 .unmatched, plainEf 2 0 101 .unmatched]
    bankMovements := [plainBm 1 0 101 .unmatched, plainBm 2 1 100 .unmatched]
    matchRows := []
    nextMatchId := 0 }

/-- C3: the store after the first automatic run on `c3db0`. -/
def c3db1 : DB := (autoMatchAll c3db0).1

/-- C3: the match created by the second automatic run. -/
def c3newMatch : MatchRec :=
  { id := 1, efaturaId := 1, bankMovementId := 2
    confidenceScore := 667/1000, matchMethod := "suggested"
    status := .proposed }

/-- C2: the match row created by `runAutomaticMatching` on `c2mpDB`. -/
def c2mpMatch : MatchRec :=
  { id := 0, efaturaId := 1, bankMovementId := 1
    confidenceScore := 1, matchMethod := "automatic"
    status := .proposed }

/-- C4: the anchor invoice. -/
def c4ef : Efatura :=
  { id := 1, documentDate := 0, totalAmount := 100
    supplierName := "acme", supplierNif := "", documentNumber := ""
    reference := "", status := .unmatched }

/-- C4: first of two equally plausible transactions. -/
def c4bm1 : BankMovement :=
  { id := 1, movementDate := 0, amount := -100
    description := "acme", reference := "", status := .unmatched }

/-- C4: second of two equally plausible transactions. -/
def c4bm2 : BankMovement :=
  { id := 2, movementDate := 0, amount := -100
    description := "acme", reference := "", status := .unmatched }

/-- C4: one invoice and two equally scoring transactions (both score 0.9). -/
def c4db : DB :=
  { efaturas := [c4ef]
    bankMovements := [c4bm1, c4bm2]
    matchRows := []
    nextMatchId := 0 }

/-- C5: a proposed match row linking e-fatura 1 and bank movement 1. -/
def c5match : MatchRec :=
  { id := 0, efaturaId := 1, bankMovementId := 1
    confidenceScore := 8/10, matchMethod := "automatic"
    status := .proposed }

/-- C5: a store holding one proposed match between matched records. -/
def c5db : DB :=
  { efaturas := [plainEf 1 0 100 .matched]
    bankMovements := [plainBm 1 0 100 .matched]
    matchRows := [c5match]
    nextMatchId := 1 }

/-- C6: an unmatched pair whose computed score is 0.8 (same day, equal
amounts, no references). -/
def c6db : DB :=
  { efaturas := [plainEf 1 0 100 .unmatched]
    bankMovements := [plainBm 1 0 100 .unmatched]
    matchRows := []
    nextMatchId := 0 }

/-- C7: movement 1 has the smaller amount difference, movement 2 the smaller
date difference; the SQL orders by date difference first. -/
def c7db : DB :=
  { efaturas := [plainEf 1 0 100 .unmatched]
    bankMovements := [plainBm 1 1 100 .unmatched, plainBm 2 0 101 .unmatched]
    matchRows := []
    nextMatchId := 0 }

/-- C7: the anchor e-fatura of `c7db`. -/
def c7ef : Efatura := plainEf 1 0 100 .unmatched

/-- C8: an invoice whose supplier name is weakly similar to the paired
transaction description. -/
def c8ef : Efatura :=
  { id := 1, documentDate := 0, totalAmount := 100
    supplierName := "acme", supplierNif := "", documentNumber := ""
    reference := "", status := .unmatched }

/-- C8: the transaction paired with `c8ef` (same day, equal amount,
description only 0.4-similar to the supplier name). -/
def c8bm : BankMovement :=
  { id := 1, movementDate := 0, amount := 100
    description := "xyz", reference := "", status := .unmatched }

/-- C9: a store holding one proposed match. -/
def c9db : DB :=
  { efaturas := [plainEf 1 0 100 .matched]
    bankMovements := [plainBm 1 0 100 .matched]
    matchRows :=
      [{ id := 0, efaturaId := 1, bankMovementId := 1
         confidenceScore := 8/10, matchMethod := "automatic"
         status := .proposed }]
    nextMatchId := 1 }

/-- C10: a fresh unmatched pair. -/
def c10db : DB :=
  { efaturas := [plainEf 1 0 100 .unmatched]
    bankMovements := [plainBm 1 0 100 .unmatched]
    matchRows := []
    nextMatchId := 0 }

/-! ## General lemmas -/

theorem foldl_preserve {α σ : Type _} {f : σ → α → σ} {Q : σ → Prop} :
    ∀ (l : List α) (s : σ), Q s → (∀ s' a, a ∈ l → Q s' → Q (f s' a)) →
      Q (l.foldl f s)
  | [], _, hs, _ => hs
  | a :: l, s, hs, hstep =>
    foldl_preserve l (f s a) (hstep s a (List.mem_cons_self a l) hs)
      (fun s' b hb hq => hstep s' b (List.mem_cons_of_mem a hb) hq)

theorem mem_setEfaturaStatus {l : List Efatura} {eid : Nat} {st : RecStatus}
    {e : Efatura} (h : e ∈ setEfaturaStatus l eid st) :
    (e ∈ l ∧ e.id ≠ eid) ∨
      ∃ e0 ∈ l, e0.id = eid ∧ e = { e0 with status := st } := by
  unfold setEfaturaStatus at h
  rcases List.mem_map.1 h with ⟨e0, he0, heq⟩
  by_cases hid : e0.id = eid
  · rw [if_pos hid] at heq
    exact Or.inr ⟨e0, he0, hid, heq.symm⟩
  · rw [if_neg hid] at heq
    subst heq
    exact Or.inl ⟨he0, hid⟩

theorem setEfaturaStatus_map_id (l : List Efatura) (eid : Nat)
    (st : RecStatus) :
    (setEfaturaStatus l eid st).map (·.id) = l.map (·.id) := by
  unfold setEfaturaStatus
  rw [List.map_map]
  refine List.map_congr_left ?_
  intro e _
  by_cases h : e.id = eid <;> simp [h]

theorem setEfaturaStatus_target {l : List Efatura} {eid : Nat}
    {st : RecStatus} {e : Efatura} (h : e ∈ setEfaturaStatus l eid st)
    (hid : e.id = eid) : e.status = st := by
  rcases mem_setEfaturaStatus h with ⟨_, hne⟩ | ⟨e0, _, _, rfl⟩
  · exact absurd hid hne
  · rfl

theorem setEfaturaStatus_other {l : List Efatura} {eid : Nat}
    {st : RecStatus} {e : Efatura} (h : e ∈ setEfaturaStatus l eid st)
    (hid : e.id ≠ eid) : e ∈ l := by
  rcases mem_setEfaturaStatus h with ⟨hmem, _⟩ | ⟨e0, he0, he0id, rfl⟩
  · exact hmem
  · exact absurd he0id hid

theorem setEfaturaStatus_keeps {l : List Efatura} {eid : Nat}
    {st : RecStatus} {j : Nat} (hst : st ≠ RecStatus.unmatched)
    (hold : ∀ e ∈ l, e.id = j → e.status ≠ RecStatus.unmatched) :
    ∀ e ∈ setEfaturaStatus l eid st, e.id = j →
      e.status ≠ RecStatus.unmatched := by
  intro e he hj
  rcases mem_setEfaturaStatus he with ⟨hmem, _⟩ | ⟨e0, _, _, rfl⟩
  · exact hold e hmem hj
  · simpa using hst

theorem setEfaturaStatus_mem_of_ne {l : List Efatura} {eid : Nat}
    {st : RecStatus} {e : Efatura} (he : e ∈ l) (hne : e.id ≠ eid) :
    e ∈ setEfaturaStatus l eid st := by
  unfold setEfaturaStatus
  refine List.mem_map.2 ⟨e, he, ?_⟩
  rw [if_neg hne]

theorem mem_setBankStatus {l : List BankMovement} {bid : Nat}
    {st : RecStatus} {b : BankMovement} (h : b ∈ setBankStatus l bid st) :
    (b ∈ l ∧ b.id ≠ bid) ∨
      ∃ b0 ∈ l, b0.id = bid ∧ b = { b0 with status := st } := by
  unfold setBankStatus at h
  rcases List.mem_map.1 h with ⟨b0, hb0, heq⟩
  by_cases hid : b0.id = bid
  · rw [if_pos hid] at heq
    exact Or.inr ⟨b0, hb0, hid, heq.symm⟩
  · rw [if_neg hid] at heq
    subst heq
    exact Or.inl ⟨hb0, hid⟩

theorem setBankStatus_map_id (l : List BankMovement) (bid : Nat)
    (st : RecStatus) :
    (setBankStatus l bid st).map (·.id) = l.map (·.id) := by
  unfold setBankStatus
  rw [List.map_map]
  refine List.map_congr_left ?_
  intro b _
  by_cases h : b.id = bid <;> simp [h]

theorem setBankStatus_target {l : List BankMovement} {bid : Nat}
    {st : RecStatus} {b : BankMovement} (h : b ∈ setBankStatus l bid st)
    (hid : b.id = bid) : b.status = st := by
  rcases mem_setBankStatus h with ⟨_, hne⟩ | ⟨b0, _, _, rfl⟩
  · exact absurd hid hne
  · rfl

theorem setBankStatus_other {l : List BankMovement} {bid : Nat}
    {st : RecStatus} {b : BankMovement} (h : b ∈ setBankStatus l bid st)
    (hid : b.id ≠ bid) : b ∈ l := by
  rcases mem_setBankStatus h with ⟨hmem, _⟩ | ⟨b0, hb0, hb0id, rfl⟩
  · exact hmem
  · exact absurd hb0id hid

theorem setBankStatus_keeps {l : List BankMovement} {bid : Nat}
    {st : RecStatus} {j : Nat} (hst : st ≠ RecStatus.unmatched)
    (hold : ∀ b ∈ l, b.id = j → b.status ≠ RecStatus.unmatched) :
    ∀ b ∈ setBankStatus l bid st, b.id = j →
      b.status ≠ RecStatus.unmatched := by
  intro b hb hj
  rcases mem_setBankStatus hb with ⟨hmem, _⟩ | ⟨b0, _, _, rfl⟩
  · exact hold b hmem hj
  · simpa using hst

theorem setBankStatus_mem_of_ne {l : List BankMovement} {bid : Nat}
    {st : RecStatus} {b : BankMovement} (hb : b ∈ l) (hne : b.id ≠ bid) :
    b ∈ setBankStatus l bid st := by
  unfold setBankStatus
  refine List.mem_map.2 ⟨b, hb, ?_⟩
  rw [if_neg hne]

theorem find?_unmatchedE {l : List Efatura} {eid : Nat} {e : Efatura}
    (h : l.find? (fun x => x.id = eid ∧ x.status = RecStatus.unmatched) =
      some e) :
    e ∈ l ∧ e.id = eid ∧ e.status = RecStatus.unmatched := by
  have hp := List.find?_some h
  have hm := List.mem_of_find?_eq_some h
  simp only [decide_eq_true_eq, Bool.decide_and, Bool.and_eq_true] at hp
  exact ⟨hm, by simpa using hp.1, by simpa using hp.2⟩

theorem find?_unmatchedB {l : List BankMovement} {bid : Nat}
    {b : BankMovement}
    (h : l.find? (fun x => x.id = bid ∧ x.status = RecStatus.unmatched) =
      some b) :
    b ∈ l ∧ b.id = bid ∧ b.status = RecStatus.unmatched := by
  have hp := List.find?_some h
  have hm := List.mem_of_find?_eq_some h
  simp only [decide_eq_true_eq, Bool.decide_and, Bool.and_eq_true] at hp
  exact ⟨hm, by simpa using hp.1, by simpa using hp.2⟩

theorem matchRow_found {l : List MatchRec} {mid : Nat} {m : MatchRec}
    (hfind : l.find? (fun r => r.id = mid) = some m) :
    m ∈ l ∧ m.id = mid := by
  have hp := List.find?_some hfind
  have hm := List.mem_of_find?_eq_some hfind
  simp only [decide_eq_true_eq] at hp
  exact ⟨hm, hp⟩

theorem matchRow_unique {l : List MatchRec} {mid : Nat} {m : MatchRec}
    (hnd : (l.map (·.id)).Nodup)
    (hfind : l.find? (fun r => r.id = mid) = some m) :
    ∀ r ∈ l, r.id = mid → r = m := by
  intro r hr hrid
  rcases matchRow_found hfind with ⟨hm, hmid⟩
  exact List.inj_on_of_nodup_map hnd hr hm (by rw [hrid, hmid])

theorem exclusive_symm :
    Symmetric (fun m1 m2 : MatchRec =>
      m1.status ≠ MatchStatus.rejected → m2.status ≠ MatchStatus.rejected →
        m1.efaturaId ≠ m2.efaturaId ∧
          m1.bankMovementId ≠ m2.bankMovementId) := by
  intro m1 m2 h h2 h1
  exact ⟨(h h1 h2).1.symm, (h h1 h2).2.symm⟩

theorem exclusive_distinct {db : DB} (hex : Exclusive db)
    {m1 m2 : MatchRec} (h1 : m1 ∈ db.matchRows) (h2 : m2 ∈ db.matchRows)
    (ha1 : m1.status ≠ MatchStatus.rejected)
    (ha2 : m2.status ≠ MatchStatus.rejected) (hne : m1 ≠ m2) :
    m1.efaturaId ≠ m2.efaturaId ∧
      m1.bankMovementId ≠ m2.bankMovementId :=
  hex.forall exclusive_symm h1 h2 hne ha1 ha2

/-! ## Invariant preservation of the primitive operations -/

theorem noActiveRefE_of_unmatched {db : DB} (hsync : StatusSync db)
    {e : Efatura} (he : e ∈ db.efaturas)
    (hu : e.status = RecStatus.unmatched) :
    ∀ m ∈ db.matchRows, m.status ≠ MatchStatus.rejected →
      m.efaturaId ≠ e.id := by
  intro m hm hact heq
  exact ((hsync m hm hact).1 e he heq.symm) hu

theorem noActiveRefB_of_unmatched {db : DB} (hsync : StatusSync db)
    {b : BankMovement} (hb : b ∈ db.bankMovements)
    (hu : b.status = RecStatus.unmatched) :
    ∀ m ∈ db.matchRows, m.status ≠ MatchStatus.rejected →
      m.bankMovementId ≠ b.id := by
  intro m hm hact heq
  exact ((hsync m hm hact).2 b hb heq.symm) hu

theorem inv_createAndMark {db : DB} {eid bid : Nat} {score : ℚ}
    {method : String} (hInv : Inv db)
    (he : ∃ e ∈ db.efaturas, e.id = eid ∧ e.status = RecStatus.unmatched)
    (hb : ∃ b ∈ db.bankMovements, b.id = bid ∧ b.status = RecStatus.unmatched) :
    Inv (createAndMark db eid bid score method) := by
  obtain ⟨hex, hsync, hndE, hndB, hndM, hbound⟩ := hInv
  obtain ⟨e, heMem, heId, heSt⟩ := he
  obtain ⟨b, hbMem, hbId, hbSt⟩ := hb
  have hnoE : ∀ m ∈ db.matchRows, m.status ≠ MatchStatus.rejected →
      m.efaturaId ≠ eid := by
    intro m hm hact
    rw [← heId]
    exact noActiveRefE_of_unmatched hsync heMem heSt m hm hact
  have hnoB : ∀ m ∈ db.matchRows, m.status ≠ MatchStatus.rejected →
      m.bankMovementId ≠ bid := by
    intro m hm hact
    rw [← hbId]
    exact noActiveRefB_of_unmatched hsync hbMem hbSt m hm hact
  have hfreshId : db.nextMatchId ∉ db.matchRows.map (·.id) := by
    intro hmem
    rcases List.mem_map.1 hmem with ⟨r, hr, hrid⟩
    exact absurd hrid (Nat.ne_of_lt (hbound r hr))
  refine ⟨?_, ?_, ?_, ?_, ?_, ?_⟩
  · -- Exclusive
    refine List.pairwise_append.2 ⟨hex, List.pairwise_singleton _ _, ?_⟩
    intro m hm m' hm'
    rcases List.mem_singleton.1 hm' with rfl
    intro hact _
    exact ⟨hnoE m hm hact, hnoB m hm hact⟩
  · -- StatusSync
    intro m hm hact
    rcases List.mem_append.1 hm with hmOld | hmNew
    · have hold := hsync m hmOld hact
      exact ⟨setEfaturaStatus_keeps (by simp) hold.1,
        setBankStatus_keeps (by simp) hold.2⟩
    · rcases List.mem_singleton.1 hmNew with rfl
      constructor
      · intro e' he' heid
        have := setEfaturaStatus_target he' heid
        simp [this]
      · intro b' hb' hbid
        have := setBankStatus_target hb' hbid
        simp [this]
  · simpa [createAndMark, setEfaturaStatus_map_id] using hndE
  · simpa [createAndMark, setBankStatus_map_id] using hndB
  · -- match id nodup
    simp only [createAndMark, List.map_append, List.map_cons, List.map_nil]
    rw [List.nodup_append]
    exact ⟨hndM, List.nodup_singleton _,
      by simpa using fun h => hfreshId h⟩
  · -- bound
    intro m hm
    rcases List.mem_append.1 hm with hmOld | hmNew
    · exact Nat.lt_succ_of_lt (hbound m hmOld)
    · rcases List.mem_singleton.1 hmNew with rfl
      exact Nat.lt_succ_self _

theorem confirmMatch_eq {db : DB} {mid : Nat} {m : MatchRec}
    (hfind : db.matchRows.find? (fun r => r.id = mid) = some m) :
    confirmMatch db mid = Except.ok
      { db with
        matchRows := db.matchRows.map
          (fun r => if r.id = mid then { r with status := .confirmed } else r)
        efaturas := setEfaturaStatus db.efaturas m.efaturaId .confirmed
        bankMovements :=
          setBankStatus db.bankMovements m.bankMovementId .confirmed } := by
  unfold confirmMatch
  rw [hfind]

theorem rejectMatch_eq {db : DB} {mid : Nat} {m : MatchRec}
    (hfind : db.matchRows.find? (fun r => r.id = mid) = some m) :
    rejectMatch db mid = Except.ok
      { db with
        matchRows := db.matchRows.map
          (fun r => if r.id = mid then { r with status := .rejected } else r)
        efaturas := setEfaturaStatus db.efaturas m.efaturaId .unmatched
        bankMovements :=
          setBankStatus db.bankMovements m.bankMovementId .unmatched } := by
  unfold rejectMatch
  rw [hfind]

theorem deleteMatch_eq {db : DB} {mid : Nat} {m : MatchRec}
    (hfind : db.matchRows.find? (fun r => r.id = mid) = some m) :
    deleteMatch db mid = Except.ok
      { db with
        efaturas := setEfaturaStatus db.efaturas m.efaturaId .unmatched
        bankMovements :=
          setBankStatus db.bankMovements m.bankMovementId .unmatched
        matchRows := db.matchRows.filter (fun r => ¬ r.id = mid) } := by
  unfold deleteMatch
  rw [hfind]

theorem inv_confirmMatch {db : DB} {mid : Nat} {m : MatchRec} {db' : DB}
    (hInv : Inv db)
    (hfind : db.matchRows.find? (fun r => r.id = mid) = some m)
    (hact : m.status ≠ MatchStatus.rejected)
    (hok : confirmMatch db mid = Except.ok db') : Inv db' := by
  obtain ⟨hex, hsync, hndE, hndB, hndM, hbound⟩ := hInv
  rw [confirmMatch_eq hfind] at hok
  cases Except.ok.inj hok
  have hmid := (matchRow_found hfind).2
  have huniq := matchRow_unique hndM hfind
  set g := fun r : MatchRec =>
    if r.id = mid then { r with status := MatchStatus.confirmed } else r with hg
  have hgid : ∀ r : MatchRec, (g r).id = r.id := by
    intro r
    by_cases h : r.id = mid <;> simp [hg, h]
  have hgact : ∀ r ∈ db.matchRows,
      (g r).status ≠ MatchStatus.rejected → r.status ≠ MatchStatus.rejected := by
    intro r hr hgr
    by_cases h : r.id = mid
    · rw [huniq r hr h]; exact hact
    · simpa [hg, h] using hgr
  have hgid : ∀ r : MatchRec, (g r).id = r.id := by
    intro r
    by_cases h : r.id = mid <;> simp [hg, h]
  have hgef : ∀ r : MatchRec, (g r).efaturaId = r.efaturaId := by
    intro r
    by_cases h : r.id = mid <;> simp [hg, h]
  have hgbk : ∀ r : MatchRec, (g r).bankMovementId = r.bankMovementId := by
    intro r
    by_cases h : r.id = mid <;> simp [hg, h]
  refine ⟨?_, ?_, ?_, ?_, ?_, ?_⟩
  · -- Exclusive
    show (db.matchRows.map g).Pairwise _
    rw [List.pairwise_map]
    refine List.Pairwise.imp_of_mem ?_ hex
    intro a b ha hb hR hga hgb
    rw [hgef a, hgef b, hgbk a, hgbk b]
    exact hR (hgact a ha hga) (hgact b hb hgb)
  · -- StatusSync
    intro m' hm' hact'
    rcases List.mem_map.1 hm' with ⟨r, hr, rfl⟩
    by_cases h : r.id = mid
    · have hrm := huniq r hr h
      subst hrm
      constructor
      · intro e' he' heid
        rw [hgef r] at heid
        have := setEfaturaStatus_target he' heid
        simp [this]
      · intro b' hb' hbid
        rw [hgbk r] at hbid
        have := setBankStatus_target hb' hbid
        simp [this]
    · have hgr : g r = r := by simp [hg, h]
      rw [hgr] at hact' ⊢
      have hold := hsync r hr hact'
      exact ⟨setEfaturaStatus_keeps (by simp) hold.1,
        setBankStatus_keeps (by simp) hold.2⟩
  · show ((setEfaturaStatus db.efaturas m.efaturaId .confirmed).map (·.id)).Nodup
    rw [setEfaturaStatus_map_id]
    exact hndE
  · show ((setBankStatus db.bankMovements m.bankMovementId .confirmed).map (·.id)).Nodup
    rw [setBankStatus_map_id]
    exact hndB
  · show ((db.matchRows.map g).map (·.id)).Nodup
    have hmap : (db.matchRows.map g).map (·.id) = db.matchRows.map (·.id) := by
      rw [List.map_map]
      exact List.map_congr_left (fun r _ => hgid r)
    rw [hmap]
    exact hndM
  · intro m' hm'
    rcases List.mem_map.1 hm' with ⟨r, hr, rfl⟩
    show (g r).id < db.nextMatchId
    rw [hgid r]
    exact hbound r hr

theorem inv_rejectMatch {db : DB} {mid : Nat} {m : MatchRec} {db' : DB}
    (hInv : Inv db)
    (hfind : db.matchRows.find? (fun r => r.id = mid) = some m)
    (hact : m.status ≠ MatchStatus.rejected)
    (hok : rejectMatch db mid = Except.ok db') : Inv db' := by
  obtain ⟨hex, hsync, hndE, hndB, hndM, hbound⟩ := hInv
  rw [rejectMatch_eq hfind] at hok
  cases Except.ok.inj hok
  obtain ⟨hmMem, hmid⟩ := matchRow_found hfind
  set g := fun r : MatchRec =>
    if r.id = mid then { r with status := MatchStatus.rejected } else r with hg
  have hgact : ∀ r : MatchRec, (g r).status ≠ MatchStatus.rejected →
      r.id ≠ mid ∧ g r = r := by
    intro r hgr
    by_cases h : r.id = mid
    · exact absurd (by simp [hg, h]) hgr
    · exact ⟨h, by simp [hg, h]⟩
  have hgid : ∀ r : MatchRec, (g r).id = r.id := by
    intro r
    by_cases h : r.id = mid <;> simp [hg, h]
  refine ⟨?_, ?_, ?_, ?_, ?_, ?_⟩
  · -- Exclusive
    show (db.matchRows.map g).Pairwise _
    rw [List.pairwise_map]
    refine List.Pairwise.imp_of_mem ?_ hex
    intro a b _ _ hR hga hgb
    obtain ⟨-, hga'⟩ := hgact a hga
    obtain ⟨-, hgb'⟩ := hgact b hgb
    rw [hga'] at hga
    rw [hgb'] at hgb
    rw [hga', hgb']
    exact hR hga hgb
  · -- StatusSync
    intro m' hm' hact'
    rcases List.mem_map.1 hm' with ⟨r, hr, rfl⟩
    obtain ⟨hrne, hgr⟩ := hgact r hact'
    rw [hgr] at hact' ⊢
    have hold := hsync r hr hact'
    have hrm : r ≠ m := fun hrm => hrne (hrm ▸ hmid)
    have hdist := exclusive_distinct hex hr hmMem hact' hact hrm
    constructor
    · intro e' he' heid
      rcases mem_setEfaturaStatus he' with ⟨heMem, _⟩ | ⟨e0, _, he0id, rfl⟩
      · exact hold.1 e' heMem heid
      · have heid' : e0.id = r.efaturaId := heid
        exact fun _ => hdist.1 (heid'.symm.trans he0id)
    · intro b' hb' hbid
      rcases mem_setBankStatus hb' with ⟨hbMem, _⟩ | ⟨b0, _, hb0id, rfl⟩
      · exact hold.2 b' hbMem hbid
      · have hbid' : b0.id = r.bankMovementId := hbid
        exact fun _ => hdist.2 (hbid'.symm.trans hb0id)
  · show ((setEfaturaStatus db.efaturas m.efaturaId .unmatched).map (·.id)).Nodup
    rw [setEfaturaStatus_map_id]
    exact hndE
  · show ((setBankStatus db.bankMovements m.bankMovementId .unmatched).map (·.id)).Nodup
    rw [setBankStatus_map_id]
    exact hndB
  · show ((db.matchRows.map g).map (·.id)).Nodup
    have hmap : (db.matchRows.map g).map (·.id) = db.matchRows.map (·.id) := by
      rw [List.map_map]
      exact List.map_congr_left (fun r _ => hgid r)
    rw [hmap]
    exact hndM
  · intro m' hm'
    rcases List.mem_map.1 hm' with ⟨r, hr, rfl⟩
    show (g r).id < db.nextMatchId
    rw [hgid r]
    exact hbound r hr

theorem inv_deleteMatch {db : DB} {mid : Nat} {m : MatchRec} {db' : DB}
    (hInv : Inv db)
    (hfind : db.matchRows.find? (fun r => r.id = mid) = some m)
    (hact : m.status ≠ MatchStatus.rejected)
    (hok : deleteMatch db mid = Except.ok db') : Inv db' := by
  obtain ⟨hex, hsync, hndE, hndB, hndM, hbound⟩ := hInv
  rw [deleteMatch_eq hfind] at hok
  cases Except.ok.inj hok
  obtain ⟨hmMem, hmid⟩ := matchRow_found hfind
  have hmemF : ∀ r : MatchRec,
      r ∈ db.matchRows.filter (fun r => ¬ r.id = mid) →
      r ∈ db.matchRows ∧ r.id ≠ mid := by
    intro r hr
    have := List.mem_filter.1 hr
    exact ⟨this.1, by simpa using this.2⟩
  refine ⟨?_, ?_, ?_, ?_, ?_, ?_⟩
  · -- Exclusive
    exact List.Pairwise.sublist (List.filter_sublist _) hex
  · -- StatusSync
    intro m' hm' hact'
    obtain ⟨hrMem, hrne⟩ := hmemF m' hm'
    have hold := hsync m' hrMem hact'
    have hrm : m' ≠ m := fun hrm => hrne (hrm ▸ hmid)
    have hdist := exclusive_distinct hex hrMem hmMem hact' hact hrm
    constructor
    · intro e' he' heid
      rcases mem_setEfaturaStatus he' with ⟨heMem, _⟩ | ⟨e0, _, he0id, rfl⟩
      · exact hold.1 e' heMem heid
      · have heid' : e0.id = m'.efaturaId := heid
        exact fun _ => hdist.1 (heid'.symm.trans he0id)
    · intro b' hb' hbid
      rcases mem_setBankStatus hb' with ⟨hbMem, _⟩ | ⟨b0, _, hb0id, rfl⟩
      · exact hold.2 b' hbMem hbid
      · have hbid' : b0.id = m'.bankMovementId := hbid
        exact fun _ => hdist.2 (hbid'.symm.trans hb0id)
  · show ((setEfaturaStatus db.efaturas m.efaturaId .unmatched).map (·.id)).Nodup
    rw [setEfaturaStatus_map_id]
    exact hndE
  · show ((setBankStatus db.bankMovements m.bankMovementId .unmatched).map (·.id)).Nodup
    rw [setBankStatus_map_id]
    exact hndB
  · exact List.Nodup.sublist ((List.filter_sublist _).map _) hndM
  · intro m' hm'
    exact hbound m' (hmemF m' hm').1

theorem inv_createManualMatch {db : DB} {eid bid : Nat} {db' : DB}
    {mid : Nat} (hInv : Inv db)
    (hok : createManualMatch db eid bid = Except.ok (db', mid)) :
    Inv db' := by
  unfold createManualMatch at hok
  cases hfe : db.efaturas.find?
      (fun e => e.id = eid ∧ e.status = RecStatus.unmatched) with
  | none => rw [hfe] at hok; exact absurd hok (by simp)
  | some e =>
    rw [hfe] at hok
    cases hfb : db.bankMovements.find?
        (fun b => b.id = bid ∧ b.status = RecStatus.unmatched) with
    | none => rw [hfb] at hok; exact absurd hok (by simp)
    | some b =>
      rw [hfb] at hok
      have hpair := Except.ok.inj hok
      have hdb' : db' =
          (sqliteCreateMatch db eid bid
            (sqliteCalculateMatchScore 3 (1/100) e b)).1 := by
        rw [hpair]
      rw [hdb']
      obtain ⟨heMem, heId, heSt⟩ := find?_unmatchedE hfe
      obtain ⟨hbMem, hbId, hbSt⟩ := find?_unmatchedB hfb
      exact inv_createAndMark hInv ⟨e, heMem, heId, heSt⟩ ⟨b, hbMem, hbId, hbSt⟩

/-! ## The `run_matching_process` loop preserves the invariant -/

theorem findBestSb_mem {sim : Sim} {params : MatchingParameters}
    {efatura : Efatura} {banks : List BankMovement} {b : BankMovement}
    {s : ℚ} {c : MatchingCriteria}
    (h : findBestSb sim params efatura banks = some (b, s, c)) :
    b ∈ banks ∧ 1/2 ≤ s ∧
      s = (calculateMatchScore sim params efatura b).1 := by
  unfold findBestSb at h
  refine (foldl_preserve
    (Q := fun o : Option (BankMovement × ℚ × MatchingCriteria) =>
      ∀ b' s' c', o = some (b', s', c') →
        b' ∈ banks ∧ 1/2 ≤ s' ∧
          s' = (calculateMatchScore sim params efatura b').1)
    banks none (fun b' s' c' h => by cases h) ?_) b s c h
  intro o a ha hq b' s' c' heq
  unfold findBestSbStep at heq
  dsimp only at heq
  split at heq
  · rename_i hcond
    cases heq
    exact ⟨ha, hcond.2, rfl⟩
  · exact hq b' s' c' heq

theorem sbRunGood_step {sim : Sim} {params : MatchingParameters}
    {acc : RunAcc} {efatura : Efatura} {rem : List Efatura}
    (h : SbRunGood acc (efatura :: rem)) :
    SbRunGood (processInvoice sim params acc efatura) rem := by
  obtain ⟨hInv, hbanks, hbnd, hpend, hpnd⟩ := h
  rw [List.map_cons, List.nodup_cons] at hpnd
  obtain ⟨hpNotMem, hpnd'⟩ := hpnd
  unfold processInvoice
  cases hfb : findBestSb sim params efatura acc.banks with
  | none =>
    exact ⟨hInv, hbanks, hbnd,
      fun e he => hpend e (List.mem_cons_of_mem _ he), hpnd'⟩
  | some best =>
    obtain ⟨bank, score, crit⟩ := best
    dsimp only
    obtain ⟨hbMem, hs, hseq⟩ := findBestSb_mem hfb
    obtain ⟨b0, hb0Mem, hb0id, hb0st⟩ := hbanks bank hbMem
    obtain ⟨e0, he0Mem, he0id, he0st⟩ :=
      hpend efatura (List.mem_cons_self _ _)
    refine ⟨?_, ?_, ?_, ?_, hpnd'⟩
    · exact inv_createAndMark hInv ⟨e0, he0Mem, he0id, he0st⟩
        ⟨b0, hb0Mem, hb0id, hb0st⟩
    · intro b' hb'
      have hb'old : b' ∈ acc.banks := List.mem_of_mem_eraseP hb'
      have hb'ne : b'.id ≠ bank.id := by
        intro hbeq
        obtain ⟨a, l₁, l₂, hl₁, hpa, hl, herase⟩ :=
          List.exists_of_eraseP hbMem (p := fun x => x.id = bank.id) (by simp)
        rw [herase] at hb'
        have haid : a.id = bank.id := by simpa using hpa
        rw [hl, List.map_append, List.map_cons] at hbnd
        rcases List.mem_append.1 hb' with h1 | h2
        · have := hl₁ b' h1
          simp only [decide_eq_true_eq] at this
          exact this hbeq
        · have hnd2 := (List.nodup_append.1 hbnd).2.1
          have hcons := List.nodup_cons.1 hnd2
          exact hcons.1 (List.mem_map.2 ⟨b', h2, by rw [hbeq, ← haid]⟩)
      obtain ⟨b1, hb1Mem, hb1id, hb1st⟩ := hbanks b' hb'old
      exact ⟨b1,
        setBankStatus_mem_of_ne hb1Mem (by rw [hb1id]; exact hb'ne),
        hb1id, hb1st⟩
    · exact List.Nodup.sublist ((List.eraseP_sublist _).map _) hbnd
    · intro e he
      obtain ⟨e1, he1Mem, he1id, he1st⟩ :=
        hpend e (List.mem_cons_of_mem _ he)
      have hene : e.id ≠ efatura.id := by
        intro heq
        exact hpNotMem (List.mem_map.2 ⟨e, he, heq⟩)
      exact ⟨e1,
        setEfaturaStatus_mem_of_ne he1Mem (by rw [he1id]; exact hene),
        he1id, he1st⟩

theorem sbRunGood_foldl {sim : Sim} {params : MatchingParameters} :
    ∀ (l : List Efatura) (acc : RunAcc), SbRunGood acc l →
      SbRunGood (l.foldl (processInvoice sim params) acc) []
  | [], _, h => h
  | _ :: l, _, h => sbRunGood_foldl l _ (sbRunGood_step h)

theorem inv_runMatchingProcess {sim : Sim} {params : MatchingParameters}
    {db : DB} (hInv : Inv db) : Inv (runMatchingProcess sim params db).1 := by
  have hndE := hInv.2.2.1
  have hndB := hInv.2.2.2.1
  have hstart : SbRunGood
      { db := db
        banks := db.bankMovements.filter (fun b => b.status = .unmatched)
        matchesCreated := 0 }
      (db.efaturas.filter (fun e => e.status = .unmatched)) := by
    refine ⟨hInv, ?_, ?_, ?_, ?_⟩
    · intro b hb
      have := List.mem_filter.1 hb
      exact ⟨b, this.1, rfl, by simpa using this.2⟩
    · exact List.Nodup.sublist ((List.filter_sublist _).map _) hndB
    · intro e he
      have := List.mem_filter.1 he
      exact ⟨e, this.1, rfl, by simpa using this.2⟩
    · exact List.Nodup.sublist ((List.filter_sublist _).map _) hndE
  exact (sbRunGood_foldl _ _ hstart).1

/-! ## The `auto_match_all` loop preserves the invariant -/

theorem mem_findPotentialMatches {tolDays : ℤ} {tolPct : ℚ} {db : DB}
    {eid : Nat} {b : BankMovement}
    (h : b ∈ findPotentialMatches tolDays tolPct db eid) :
    b ∈ db.bankMovements ∧ b.status = RecStatus.unmatched := by
  unfold findPotentialMatches at h
  cases hfe : db.efaturas.find? (fun e => e.id = eid) with
  | none => rw [hfe] at h; cases h
  | some e =>
    rw [hfe] at h
    dsimp only at h
    have h1 := List.mem_of_mem_take h
    have h2 := (List.mergeSort_perm _ _).mem_iff.1 h1
    have h3 := List.mem_filter.1 h2
    refine ⟨h3.1, ?_⟩
    have hp := h3.2
    simp only [Bool.decide_and, Bool.and_eq_true, decide_eq_true_eq] at hp
    exact hp.2.2.2.2

theorem mem_findPotentialMatches_full {tolDays : ℤ} {tolPct : ℚ} {db : DB}
    {eid : Nat} {e : Efatura} {b : BankMovement}
    (hfe : db.efaturas.find? (fun x => x.id = eid) = some e)
    (h : b ∈ findPotentialMatches tolDays tolPct db eid) :
    b ∈ db.bankMovements ∧ b.status = RecStatus.unmatched ∧
      e.documentDate - tolDays ≤ b.movementDate ∧
      b.movementDate ≤ e.documentDate + tolDays ∧
      e.totalAmount * (1 - tolPct) ≤ b.amount ∧
      b.amount ≤ e.totalAmount * (1 + tolPct) := by
  unfold findPotentialMatches at h
  rw [hfe] at h
  dsimp only at h
  have h1 := List.mem_of_mem_take h
  have h2 := (List.mergeSort_perm _ _).mem_iff.1 h1
  have h3 := List.mem_filter.1 h2
  have hp := h3.2
  simp only [Bool.decide_and, Bool.and_eq_true, decide_eq_true_eq] at hp
  exact ⟨h3.1, hp.2.2.2.2, hp.1, hp.2.1, hp.2.2.1, hp.2.2.2.1⟩

theorem sqRunGood_step {acc : DB × AutoMatchResults} {efatura : Efatura}
    {rem : List Efatura} (h : SqRunGood acc (efatura :: rem)) :
    SqRunGood (autoMatchStep acc efatura) rem := by
  obtain ⟨db, res⟩ := acc
  obtain ⟨hInv, hpend, hpnd⟩ := h
  rw [List.map_cons, List.nodup_cons] at hpnd
  obtain ⟨hpNotMem, hpnd'⟩ := hpnd
  have hcreate : ∀ (best : BankMovement) (score : ℚ)
      (res' : AutoMatchResults),
      best ∈ db.bankMovements → best.status = RecStatus.unmatched →
      SqRunGood ((sqliteCreateMatch db efatura.id best.id score).1, res')
        rem := by
    intro best score res' hbMem hbSt
    obtain ⟨e0, he0Mem, he0id, he0st⟩ :=
      hpend efatura (List.mem_cons_self _ _)
    refine ⟨?_, ?_, hpnd'⟩
    · exact inv_createAndMark hInv ⟨e0, he0Mem, he0id, he0st⟩
        ⟨best, hbMem, rfl, hbSt⟩
    · intro e1 he1
      obtain ⟨e2, he2Mem, he2id, he2st⟩ :=
        hpend e1 (List.mem_cons_of_mem _ he1)
      have hene : e1.id ≠ efatura.id := fun heq =>
        hpNotMem (List.mem_map.2 ⟨e1, he1, heq⟩)
      exact ⟨e2,
        setEfaturaStatus_mem_of_ne he2Mem (by rw [he2id]; exact hene),
        he2id, he2st⟩
  unfold autoMatchStep
  dsimp only
  cases hfp : findPotentialMatches 3 (1/100) db efatura.id with
  | nil =>
    exact ⟨hInv, fun e1 he1 => hpend e1 (List.mem_cons_of_mem _ he1), hpnd'⟩
  | cons best rest =>
    have hmem := @mem_findPotentialMatches 3 (1/100) db efatura.id best
      (by rw [hfp]; exact List.mem_cons_self best rest)
    dsimp only
    split
    · exact hcreate best _ _ hmem.1 hmem.2
    · split
      · exact hcreate best _ _ hmem.1 hmem.2
      · exact ⟨hInv, fun e1 he1 => hpend e1 (List.mem_cons_of_mem _ he1),
          hpnd'⟩

theorem sqRunGood_foldl :
    ∀ (l : List Efatura) (acc : DB × AutoMatchResults), SqRunGood acc l →
      SqRunGood (l.foldl autoMatchStep acc) []
  | [], _, h => h
  | _ :: l, _, h => sqRunGood_foldl l _ (sqRunGood_step h)

theorem inv_autoMatchAll {db : DB} (hInv : Inv db) :
    Inv (autoMatchAll db).1 := by
  have hndE := hInv.2.2.1
  unfold autoMatchAll
  dsimp only
  have hstart : SqRunGood
      (db,
        { totalProcessed :=
            (db.efaturas.filter (fun e => e.status = .unmatched)).length
          matched := 0, suggested := 0, unmatchedCount := 0 })
      (db.efaturas.filter (fun e => e.status = .unmatched)) := by
    refine ⟨hInv, ?_, ?_⟩
    · intro e he
      have := List.mem_filter.1 he
      exact ⟨e, this.1, rfl, by simpa using this.2⟩
    · exact List.Nodup.sublist ((List.filter_sublist _).map _) hndE
  exact (sqRunGood_foldl _ _ hstart).1

/-! ## The guarded operations preserve the invariant -/

theorem inv_init {db : DB} (h : InitDB db) : Inv db := by
  obtain ⟨hm, hndE, hndB⟩ := h
  refine ⟨?_, ?_, hndE, hndB, ?_, ?_⟩
  · unfold Exclusive
    rw [hm]
    exact List.Pairwise.nil
  · intro m hmm
    rw [hm] at hmm
    cases hmm
  · simp [hm]
  · intro m hmm
    rw [hm] at hmm
    cases hmm

theorem inv_step {db db' : DB} (hInv : Inv db) (h : Step db db') :
    Inv db' := by
  cases h with
  | autoRunSb sim params _ => exact inv_runMatchingProcess hInv
  | autoRunSq _ => exact inv_autoMatchAll hInv
  | manual _ eid bid _ mid hok => exact inv_createManualMatch hInv hok
  | confirmStep _ mid m _ hfind hact hok =>
    exact inv_confirmMatch hInv hfind hact hok
  | rejectStep _ mid m _ hfind hact hok =>
    exact inv_rejectMatch hInv hfind hact hok
  | deleteStep _ mid m _ hfind hact hok =>
    exact inv_deleteMatch hInv hfind hact hok

theorem inv_reachable {db0 db : DB} (h0 : Inv db0)
    (h : ReachableFrom db0 db) : Inv db := by
  induction h with
  | refl => exact h0
  | tail _ hstep ih => exact inv_step ih hstep

/-! ## Characterization of the `app/matching.py` engine -/

theorem mem_getUnmatchedEfatura {db : DB} {e : Efatura}
    (h : e ∈ getUnmatchedEfatura db) : e ∈ db.efaturas := by
  unfold getUnmatchedEfatura at h
  have h2 := (List.mergeSort_perm _ _).mem_iff.1 h
  exact (List.mem_filter.1 h2).1

theorem mem_getUnmatchedBankMovements {db : DB} {b : BankMovement}
    (h : b ∈ getUnmatchedBankMovements db) : b ∈ db.bankMovements := by
  unfold getUnmatchedBankMovements at h
  have h2 := (List.mergeSort_perm _ _).mem_iff.1 h
  exact (List.mem_filter.1 h2).1

theorem mpScore_amount_gate {sim : Sim} {toleranceDays : ℤ}
    {amountTolerance : ℚ} {efatura : Efatura} {bank : BankMovement}
    (h : mpCalculateMatchScore sim toleranceDays amountTolerance efatura
      bank ≠ 0) :
    abs (|efatura.totalAmount| - |bank.amount|) < 1/100 ∨
      abs (|efatura.totalAmount| - |bank.amount|) ≤
        |efatura.totalAmount| * amountTolerance := by
  by_contra hcon
  push_neg at hcon
  apply h
  unfold mpCalculateMatchScore
  dsimp only
  rw [if_neg (not_lt.2 hcon.1), if_neg (not_le.2 hcon.2)]

theorem mpFindBest_some {sim : Sim} {minConfidence : ℚ}
    {banks : List BankMovement} {used : List Nat} {efatura : Efatura}
    {bank : BankMovement} {s : ℚ}
    (h : mpFindBest sim minConfidence banks used efatura = some (bank, s)) :
    bank ∈ banks ∧ s = mpCalculateMatchScore sim 5 (1/100) efatura bank ∧
      0 < s := by
  unfold mpFindBest at h
  refine (foldl_preserve (Q := fun o : Option (BankMovement × ℚ) =>
      ∀ b' s', o = some (b', s') → b' ∈ banks ∧
        s' = mpCalculateMatchScore sim 5 (1/100) efatura b' ∧ 0 < s')
    banks none (fun b' s' h => by cases h) ?_) bank s h
  intro o a ha hq b' s' heq
  dsimp only at heq
  split at heq
  · exact hq b' s' heq
  · cases o with
    | none =>
      dsimp only at heq
      split at heq
      · rename_i hcond
        cases heq
        exact ⟨ha, rfl, hcond.1⟩
      · exact hq b' s' heq
    | some p =>
      obtain ⟨b₀, s₀⟩ := p
      have h0 := (hq b₀ s₀ rfl).2.2
      dsimp only at heq
      split at heq
      · rename_i hcond
        cases heq
        exact ⟨ha, rfl, lt_trans h0 hcond.1⟩
      · exact hq b' s' heq

theorem runAutomaticMatching_new {sim : Sim} {minConfidence : ℚ}
    {db : DB} :
    ∀ m ∈ (runAutomaticMatching sim minConfidence db).1.matchRows,
      m ∈ db.matchRows ∨
      ∃ e ∈ db.efaturas, ∃ b ∈ db.bankMovements,
        m.efaturaId = e.id ∧ m.bankMovementId = b.id ∧
        (abs (|e.totalAmount| - |b.amount|) < 1/100 ∨
         abs (|e.totalAmount| - |b.amount|) ≤ |e.totalAmount| * (1/100)) := by
  unfold runAutomaticMatching
  dsimp only
  refine foldl_preserve (Q := fun acc : DB × List Nat × Nat =>
      ∀ m' ∈ acc.1.matchRows, m' ∈ db.matchRows ∨
        ∃ e ∈ db.efaturas, ∃ b ∈ db.bankMovements,
          m'.efaturaId = e.id ∧ m'.bankMovementId = b.id ∧
          (abs (|e.totalAmount| - |b.amount|) < 1/100 ∨
           abs (|e.totalAmount| - |b.amount|) ≤ |e.totalAmount| * (1/100)))
    (getUnmatchedEfatura db) (db, ([] : List Nat), 0)
    (fun m' hm' => Or.inl hm') ?_
  intro acc efatura hef hq m' hm'
  obtain ⟨db', used, count⟩ := acc
  dsimp only at hm' ⊢
  cases hfb : mpFindBest sim minConfidence (getUnmatchedBankMovements db)
      used efatura with
  | none =>
    rw [hfb] at hm'
    exact hq m' hm'
  | some p =>
    obtain ⟨bank, score⟩ := p
    rw [hfb] at hm'
    dsimp only [mpCreateMatch] at hm'
    rcases List.mem_append.1 hm' with hOld | hNew
    · exact hq m' hOld
    · rcases List.mem_singleton.1 hNew with rfl
      obtain ⟨hbMem, hseq, hspos⟩ := mpFindBest_some hfb
      right
      refine ⟨efatura, mem_getUnmatchedEfatura hef,
        bank, mem_getUnmatchedBankMovements hbMem, rfl, rfl, ?_⟩
      exact mpScore_amount_gate (by rw [← hseq]; exact ne_of_gt hspos)

/-! ## Characterization of the simplified engine's run -/

theorem autoMatchAll_new {db : DB} :
    ∀ m ∈ (autoMatchAll db).1.matchRows, m ∈ db.matchRows ∨
      ∃ e ∈ db.efaturas, e.id = m.efaturaId ∧
        e.status = RecStatus.unmatched := by
  unfold autoMatchAll
  dsimp only
  refine foldl_preserve (Q := fun acc : DB × AutoMatchResults =>
      ∀ m' ∈ acc.1.matchRows, m' ∈ db.matchRows ∨
        ∃ e ∈ db.efaturas, e.id = m'.efaturaId ∧
          e.status = RecStatus.unmatched)
    (db.efaturas.filter (fun e => e.status = .unmatched))
    (db, { totalProcessed := (db.efaturas.filter (fun e => e.status = .unmatched)).length, matched := 0, suggested := 0, unmatchedCount := 0 })
    (fun m' hm' => Or.inl hm') ?_
  intro acc efatura hef hq m' hm'
  obtain ⟨db', res⟩ := acc
  have hefFacts := List.mem_filter.1 hef
  have hefMem : efatura ∈ db.efaturas := hefFacts.1
  have hefSt : efatura.status = RecStatus.unmatched := by
    simpa using hefFacts.2
  unfold autoMatchStep at hm'
  dsimp only at hm'
  cases hfp : findPotentialMatches 3 (1/100) db' efatura.id with
  | nil =>
    rw [hfp] at hm'
    exact hq m' hm'
  | cons best rest =>
    rw [hfp] at hm'
    dsimp only at hm'
    have hcreated : ∀ hmem : m' ∈
        ((sqliteCreateMatch db' efatura.id best.id
          (sqliteCalculateMatchScore 3 (1/100) efatura best)).1).matchRows,
        m' ∈ db.matchRows ∨
        ∃ e ∈ db.efaturas, e.id = m'.efaturaId ∧
          e.status = RecStatus.unmatched := by
      intro hmem
      dsimp only [sqliteCreateMatch, createAndMark] at hmem
      rcases List.mem_append.1 hmem with hOld | hNew
      · exact hq m' hOld
      · rcases List.mem_singleton.1 hNew with rfl
        exact Or.inr ⟨efatura, hefMem, rfl, hefSt⟩
    split at hm'
    · exact hcreated hm'
    · split at hm'
      · exact hcreated hm'
      · exact hq m' hm'

/-! ## Maximality of the `run_matching_process` candidate scan -/

theorem findBestSbStep_bound {sim : Sim} {params : MatchingParameters}
    {efatura : Efatura}
    (init : Option (BankMovement × ℚ × MatchingCriteria)) (a : BankMovement)
    (h : 1/2 ≤ (calculateMatchScore sim params efatura a).1) :
    ∃ p, findBestSbStep sim params efatura init a = some p ∧
      (calculateMatchScore sim params efatura a).1 ≤ p.2.1 := by
  unfold findBestSbStep
  cases init with
  | none =>
    dsimp only
    rw [if_pos ⟨lt_of_lt_of_le (by norm_num) h, h⟩]
    exact ⟨_, rfl, le_refl _⟩
  | some p0 =>
    obtain ⟨b0, s0, c0⟩ := p0
    dsimp only
    by_cases hgt : (calculateMatchScore sim params efatura a).1 > s0
    · rw [if_pos ⟨hgt, h⟩]
      exact ⟨_, rfl, le_refl _⟩
    · rw [if_neg (fun hc => hgt hc.1)]
      exact ⟨(b0, s0, c0), rfl, not_lt.1 hgt⟩

theorem findBestSbStep_mono {sim : Sim} {params : MatchingParameters}
    {efatura : Efatura}
    (init : Option (BankMovement × ℚ × MatchingCriteria)) (a : BankMovement)
    {p0 : BankMovement × ℚ × MatchingCriteria} (h0 : init = some p0) :
    ∃ p1, findBestSbStep sim params efatura init a = some p1 ∧
      p0.2.1 ≤ p1.2.1 := by
  subst h0
  unfold findBestSbStep
  obtain ⟨b0, s0, c0⟩ := p0
  dsimp only
  by_cases hc : (calculateMatchScore sim params efatura a).1 > s0 ∧
      (calculateMatchScore sim params efatura a).1 ≥ 1/2
  · rw [if_pos hc]
    exact ⟨_, rfl, le_of_lt hc.1⟩
  · rw [if_neg hc]
    exact ⟨_, rfl, le_refl _⟩

theorem findBestSb_fold_max (sim : Sim) (params : MatchingParameters)
    (efatura : Efatura) :
    ∀ (banks : List BankMovement)
      (init : Option (BankMovement × ℚ × MatchingCriteria)),
      (∀ p0, init = some p0 →
        ∃ p, banks.foldl (findBestSbStep sim params efatura) init = some p ∧
          p0.2.1 ≤ p.2.1) ∧
      (∀ b' ∈ banks,
        (calculateMatchScore sim params efatura b').1 < 1/2 ∨
        ∃ p, banks.foldl (findBestSbStep sim params efatura) init = some p ∧
          (calculateMatchScore sim params efatura b').1 ≤ p.2.1)
  | [], init => by
    constructor
    · intro p0 h0
      exact ⟨p0, h0, le_refl _⟩
    · intro b' hb'
      cases hb'
  | a :: banks, init => by
    have IH := findBestSb_fold_max sim params efatura banks
      (findBestSbStep sim params efatura init a)
    constructor
    · intro p0 h0
      obtain ⟨p1, hp1, hle1⟩ := findBestSbStep_mono init a h0
      obtain ⟨p, hp, hle⟩ := IH.1 p1 hp1
      exact ⟨p, hp, le_trans hle1 hle⟩
    · intro b' hb'
      rcases List.mem_cons.1 hb' with rfl | hbl
      · by_cases hsc : (calculateMatchScore sim params efatura b').1 < 1/2
        · exact Or.inl hsc
        · obtain ⟨p1, hp1, hle1⟩ :=
            findBestSbStep_bound init b' (not_lt.1 hsc)
          obtain ⟨p, hp, hle⟩ := IH.1 p1 hp1
          exact Or.inr ⟨p, hp, le_trans hle1 hle⟩
      · exact IH.2 b' hbl

theorem processInvoice_creates {sim : Sim} {params : MatchingParameters}
    {acc : RunAcc} {efatura : Efatura} {bank : BankMovement} {s : ℚ}
    {c : MatchingCriteria}
    (hfb : findBestSb sim params efatura acc.banks = some (bank, s, c)) :
    (processInvoice sim params acc efatura).db.matchRows =
      acc.db.matchRows ++
        [{ id := acc.db.nextMatchId, efaturaId := efatura.id,
           bankMovementId := bank.id, confidenceScore := s,
           matchMethod := if s < 95/100 then "fuzzy" else "exact",
           status := MatchStatus.proposed }] := by
  unfold processInvoice
  rw [hfb]
  dsimp only [createAndMark]

/-! ## Ordering facts for `find_potential_matches` -/

theorem sqliteCandLE_trans (efatura : Efatura) :
    ∀ a b c : BankMovement, sqliteCandLE efatura a b = true →
      sqliteCandLE efatura b c = true → sqliteCandLE efatura a c = true := by
  intro a b c hab hbc
  unfold sqliteCandLE at hab hbc ⊢
  simp only [Bool.decide_or, Bool.or_eq_true, Bool.decide_and,
    Bool.and_eq_true, decide_eq_true_eq] at hab hbc ⊢
  rcases hab with h | ⟨h1, h2⟩ <;> rcases hbc with h' | ⟨h1', h2'⟩
  · exact Or.inl (lt_trans h h')
  · exact Or.inl (h1' ▸ h)
  · exact Or.inl (h1 ▸ h')
  · exact Or.inr ⟨h1.trans h1', le_trans h2 h2'⟩

theorem sqliteCandLE_total (efatura : Efatura) :
    ∀ a b : BankMovement,
      (sqliteCandLE efatura a b || sqliteCandLE efatura b a) = true := by
  intro a b
  unfold sqliteCandLE
  simp only [Bool.decide_or, Bool.or_eq_true, Bool.decide_and,
    Bool.and_eq_true, decide_eq_true_eq]
  rcases lt_trichotomy (|a.movementDate - efatura.documentDate|)
    (|b.movementDate - efatura.documentDate|) with h | h | h
  · exact Or.inl (Or.inl h)
  · rcases le_total (|a.amount - efatura.totalAmount| / efatura.totalAmount)
        (|b.amount - efatura.totalAmount| / efatura.totalAmount) with
      h2 | h2
    · exact Or.inl (Or.inr ⟨h, h2⟩)
    · exact Or.inr (Or.inr ⟨h.symm, h2⟩)
  · exact Or.inr (Or.inl h)

theorem findPotentialMatches_eq {tolDays : ℤ} {tolPct : ℚ} {db : DB}
    {eid : Nat} {efatura : Efatura}
    (hfe : db.efaturas.find? (fun x => x.id = eid) = some efatura) :
    findPotentialMatches tolDays tolPct db eid =
      ((db.bankMovements.filter (fun bm =>
          efatura.documentDate - tolDays ≤ bm.movementDate ∧
          bm.movementDate ≤ efatura.documentDate + tolDays ∧
          efatura.totalAmount * (1 - tolPct) ≤ bm.amount ∧
          bm.amount ≤ efatura.totalAmount * (1 + tolPct) ∧
          bm.status = .unmatched)).mergeSort (sqliteCandLE efatura)).take
        10 := by
  unfold findPotentialMatches
  rw [hfe]

/-! ## Append-only behaviour of the operations other than delete -/

theorem runMatchingProcess_mono {sim : Sim} {params : MatchingParameters}
    {db : DB} :
    ∀ m ∈ db.matchRows,
      m ∈ (runMatchingProcess sim params db).1.matchRows := by
  intro m hm
  unfold runMatchingProcess
  dsimp only
  refine (foldl_preserve
    (Q := fun acc : RunAcc => ∀ m' ∈ db.matchRows, m' ∈ acc.db.matchRows)
    _ _ (fun m' hm' => hm') ?_) m hm
  intro acc efatura _ hq m' hm'
  unfold processInvoice
  cases hfb : findBestSb sim params efatura acc.banks with
  | none => exact hq m' hm'
  | some p =>
    obtain ⟨bank, s, c⟩ := p
    dsimp only [createAndMark]
    exact List.mem_append_left _ (hq m' hm')

theorem autoMatchAll_mono {db : DB} :
    ∀ m ∈ db.matchRows, m ∈ (autoMatchAll db).1.matchRows := by
  intro m hm
  unfold autoMatchAll
  dsimp only
  refine (foldl_preserve
    (Q := fun acc : DB × AutoMatchResults =>
      ∀ m' ∈ db.matchRows, m' ∈ acc.1.matchRows)
    _ _ (fun m' hm' => hm') ?_) m hm
  intro acc efatura _ hq m' hm'
  obtain ⟨db', res⟩ := acc
  unfold autoMatchStep
  dsimp only
  cases hfp : findPotentialMatches 3 (1/100) db' efatura.id with
  | nil => exact hq m' hm'
  | cons best rest =>
    dsimp only
    split
    · dsimp only [sqliteCreateMatch, createAndMark]
      exact List.mem_append_left _ (hq m' hm')
    · split
      · dsimp only [sqliteCreateMatch, createAndMark]
        exact List.mem_append_left _ (hq m' hm')
      · exact hq m' hm'

theorem createManualMatch_mono {db : DB} {eid bid : Nat} {db' : DB}
    {mid : Nat}
    (hok : createManualMatch db eid bid = Except.ok (db', mid)) :
    ∀ m ∈ db.matchRows, m ∈ db'.matchRows := by
  unfold createManualMatch at hok
  cases hfe : db.efaturas.find?
      (fun e => e.id = eid ∧ e.status = RecStatus.unmatched) with
  | none => rw [hfe] at hok; exact absurd hok (by simp)
  | some e =>
    rw [hfe] at hok
    cases hfb : db.bankMovements.find?
        (fun b => b.id = bid ∧ b.status = RecStatus.unmatched) with
    | none => rw [hfb] at hok; exact absurd hok (by simp)
    | some b =>
      rw [hfb] at hok
      have hpair := Except.ok.inj hok
      intro m hm
      have hdb' : db' =
          (sqliteCreateMatch db eid bid
            (sqliteCalculateMatchScore 3 (1/100) e b)).1 := by
        rw [hpair]
      rw [hdb']
      dsimp only [sqliteCreateMatch, createAndMark]
      exact List.mem_append_left _ hm

theorem confirmMatch_ids {db : DB} {mid : Nat} {db' : DB}
    (hok : confirmMatch db mid = Except.ok db') :
    db'.matchRows.map (fun r => r.id) =
      db.matchRows.map (fun r => r.id) := by
  unfold confirmMatch at hok
  cases hf : db.matchRows.find? (fun r => r.id = mid) with
  | none => rw [hf] at hok; exact absurd hok (by simp)
  | some m =>
    rw [hf] at hok
    cases Except.ok.inj hok
    dsimp only
    rw [List.map_map]
    refine List.map_congr_left ?_
    intro r _
    by_cases h : r.id = mid <;> simp [h]

theorem rejectMatch_ids {db : DB} {mid : Nat} {db' : DB}
    (hok : rejectMatch db mid = Except.ok db') :
    db'.matchRows.map (fun r => r.id) =
      db.matchRows.map (fun r => r.id) := by
  unfold rejectMatch at hok
  cases hf : db.matchRows.find? (fun r => r.id = mid) with
  | none => rw [hf] at hok; exact absurd hok (by simp)
  | some m =>
    rw [hf] at hok
    cases Except.ok.inj hok
    dsimp only
    rw [List.map_map]
    refine List.map_congr_left ?_
    intro r _
    by_cases h : r.id = mid <;> simp [h]

/-! ## Characterization of the manual-match endpoint -/

theorem createManualMatch_ok_iff (db : DB) (eid bid : Nat) :
    (∃ r, createManualMatch db eid bid = Except.ok r) ↔
      ((∃ e ∈ db.efaturas, e.id = eid ∧ e.status = RecStatus.unmatched) ∧
       (∃ b ∈ db.bankMovements, b.id = bid ∧
         b.status = RecStatus.unmatched)) := by
  constructor
  · rintro ⟨r, hr⟩
    unfold createManualMatch at hr
    cases hfe : db.efaturas.find?
        (fun e => e.id = eid ∧ e.status = RecStatus.unmatched) with
    | none => rw [hfe] at hr; exact absurd hr (by simp)
    | some e =>
      rw [hfe] at hr
      cases hfb : db.bankMovements.find?
          (fun b => b.id = bid ∧ b.status = RecStatus.unmatched) with
      | none => rw [hfb] at hr; exact absurd hr (by simp)
      | some b =>
        obtain ⟨he1, he2, he3⟩ := find?_unmatchedE hfe
        obtain ⟨hb1, hb2, hb3⟩ := find?_unmatchedB hfb
        exact ⟨⟨e, he1, he2, he3⟩, ⟨b, hb1, hb2, hb3⟩⟩
  · rintro ⟨⟨e, he1, he2, he3⟩, ⟨b, hb1, hb2, hb3⟩⟩
    have hfe : (db.efaturas.find?
        (fun x => x.id = eid ∧ x.status = RecStatus.unmatched)).isSome := by
      rw [List.find?_isSome]
      exact ⟨e, he1, by simp [he2, he3]⟩
    have hfb : (db.bankMovements.find?
        (fun x => x.id = bid ∧ x.status = RecStatus.unmatched)).isSome := by
      rw [List.find?_isSome]
      exact ⟨b, hb1, by simp [hb2, hb3]⟩
    obtain ⟨e', hfe'⟩ := Option.isSome_iff_exists.1 hfe
    obtain ⟨b', hfb'⟩ := Option.isSome_iff_exists.1 hfb
    refine ⟨(sqliteCreateMatch db eid bid
      (sqliteCalculateMatchScore 3 (1/100) e' b')), ?_⟩
    unfold createManualMatch
    rw [hfe', hfb']

theorem createManualMatch_ok_fields {db : DB} {eid bid : Nat} {db' : DB}
    {mid : Nat}
    (hok : createManualMatch db eid bid = Except.ok (db', mid)) :
    ∃ e b,
      db.efaturas.find?
        (fun x => x.id = eid ∧ x.status = RecStatus.unmatched) = some e ∧
      db.bankMovements.find?
        (fun x => x.id = bid ∧ x.status = RecStatus.unmatched) = some b ∧
      mid = db.nextMatchId ∧
      db' = createAndMark db eid bid
        (sqliteCalculateMatchScore 3 (1/100) e b)
        (if sqliteCalculateMatchScore 3 (1/100) e b ≥ 8/10 then "automatic"
         else "suggested") := by
  unfold createManualMatch at hok
  cases hfe : db.efaturas.find?
      (fun e => e.id = eid ∧ e.status = RecStatus.unmatched) with
  | none => rw [hfe] at hok; exact absurd hok (by simp)
  | some e =>
    rw [hfe] at hok
    cases hfb : db.bankMovements.find?
        (fun b => b.id = bid ∧ b.status = RecStatus.unmatched) with
    | none => rw [hfb] at hok; exact absurd hok (by simp)
    | some b =>
      rw [hfb] at hok
      have hpair := Except.ok.inj hok
      refine ⟨e, b, rfl, rfl, ?_, ?_⟩
      · have hmid := congrArg Prod.snd hpair
        exact hmid.symm
      · have hdb' : db' = (sqliteCreateMatch db eid bid
            (sqliteCalculateMatchScore 3 (1/100) e b)).1 := by
          rw [hpair]
        rw [hdb']
        rfl

/-! ## The claims -/

/-- C1 (amended): starting from an ingested store (no match rows, unique
record ids), every state reachable by the matching operations — the two
status-based automatic runs, manual match creation, and confirm / reject /
delete *applied to an existing non-rejected match row* — satisfies 1:1
exclusivity: no two active (status ≠ rejected) match rows share an e-fatura
id or a bank-movement id.  (As stated, without the non-rejected guard, the
claim is false: see the counterexample, which re-rejects an already-rejected
match.) -/
theorem c1_exclusivity (db0 db : DB) (h0 : InitDB db0)
    (hreach : ReachableFrom db0 db) : Exclusive db :=
  (inv_reachable (inv_init h0) hreach).1

theorem c1_witness :
    InitDB c1db0 ∧ Exclusive (autoMatchAll c1db0).1 :=
  ⟨by with_unfolding_all decide,
   c1_exclusivity c1db0 (autoMatchAll c1db0).1
     (by with_unfolding_all decide)
     (ReachableFrom.tail ReachableFrom.refl (Step.autoRunSq c1db0))⟩

/-- C1, as stated, is false: the five listed operations alone (manual match
creation and reject, with reject applied a second time to the already
rejected match 0) reach a state with two active match rows referencing
e-fatura 1. -/
theorem c1_counterexample :
    c1trace = Except.ok c1finalDB ∧ ¬ Exclusive c1finalDB := by
  with_unfolding_all decide

/-- C2 (amended): every match created by the `app/matching.py` automatic run
links records whose absolute amounts differ by less than 0.01 (the
exact-match window, playing the role of the absolute tolerance) or by at
most `amount_tolerance × |invoice total|` with the default tolerance 0.01.
(The claimed `max(amount_tolerance_absolute, …)` bound is false for the
`matching_engine.py` run, which enforces no amount tolerance at all — see
the counterexample.) -/
theorem c2_amount_tolerance (sim : Sim) (minConfidence : ℚ) (db : DB)
    (m : MatchRec)
    (hm : m ∈ (runAutomaticMatching sim minConfidence db).1.matchRows)
    (hnew : m ∉ db.matchRows) :
    ∃ e ∈ db.efaturas, ∃ b ∈ db.bankMovements,
      m.efaturaId = e.id ∧ m.bankMovementId = b.id ∧
      (abs (|e.totalAmount| - |b.amount|) < 1/100 ∨
       abs (|e.totalAmount| - |b.amount|) ≤ |e.totalAmount| * (1/100)) := by
  rcases runAutomaticMatching_new m hm with h | h
  · exact absurd h hnew
  · exact h

theorem c2_witness :
    c2mpMatch ∈ (runAutomaticMatching simEq (1/2) c2mpDB).1.matchRows ∧
    c2mpMatch ∉ c2mpDB.matchRows ∧
    (∃ e ∈ c2mpDB.efaturas, ∃ b ∈ c2mpDB.bankMovements,
      c2mpMatch.efaturaId = e.id ∧ c2mpMatch.bankMovementId = b.id ∧
      (abs (|e.totalAmount| - |b.amount|) < 1/100 ∨
       abs (|e.totalAmount| - |b.amount|) ≤ |e.totalAmount| * (1/100))) :=
  ⟨by with_unfolding_all decide, by with_unfolding_all decide,
   c2_amount_tolerance simEq (1/2) c2mpDB c2mpMatch
     (by with_unfolding_all decide) (by with_unfolding_all decide)⟩

/-- C2, as stated, is false for the `matching_engine.py` run: on `c2sbDB` it
creates a proposed match between an invoice of 100 and a transaction of −5
(amount difference 95, tolerance 1; the code has no
`amount_tolerance_absolute` parameter, modelled here as 0). -/
theorem c2_counterexample :
    (runMatchingProcess simEq defaultParams c2sbDB).1.matchRows =
      [{ id := 0, efaturaId := c2sbEf.id, bankMovementId := c2sbBm.id,
         confidenceScore := 6/10, matchMethod := "fuzzy",
         status := MatchStatus.proposed }] ∧
    abs (c2sbEf.totalAmount - |c2sbBm.amount|) = 95 ∧
    ¬ abs (c2sbEf.totalAmount - |c2sbBm.amount|) ≤
        max 0 (c2sbEf.totalAmount * defaultParams.amountTolerancePercent) := by
  with_unfolding_all decide

/-- C3 (amended): a second automatic run never creates a match for — nor
touches — any invoice already matched by an earlier run: every match row
the run adds references an invoice that was `unmatched` when the run
started.  (Zero-new-matches on the second run, as claimed, is false: the
first run's matches shrink the candidate pool, which can change a later
invoice's first-ranked candidate — see the counterexample.) -/
theorem c3_second_run (db : DB) (m : MatchRec)
    (hm : m ∈ (autoMatchAll db).1.matchRows) (hnew : m ∉ db.matchRows) :
    ∃ e ∈ db.efaturas, e.id = m.efaturaId ∧
      e.status = RecStatus.unmatched := by
  rcases autoMatchAll_new m hm with h | h
  · exact absurd h hnew
  · exact h

theorem c3_witness :
    c3newMatch ∈ (autoMatchAll c3db1).1.matchRows ∧
    c3newMatch ∉ c3db1.matchRows ∧
    (∃ e ∈ c3db1.efaturas, e.id = c3newMatch.efaturaId ∧
      e.status = RecStatus.unmatched) :=
  ⟨by with_unfolding_all decide, by with_unfolding_all decide,
   c3_second_run c3db1 c3newMatch (by with_unfolding_all decide)
     (by with_unfolding_all decide)⟩

/-- C3, as stated, is false: on `c3db0` the first run creates one match and
the immediately repeated run (no data changes in between — `c3db1` is
exactly the first run's output) creates a second one. -/
theorem c3_counterexample :
    c3db1 = (autoMatchAll c3db0).1 ∧
    (autoMatchAll c3db0).1.matchRows.length = 1 ∧
    (autoMatchAll c3db1).1.matchRows.length = 2 := by
  with_unfolding_all decide

/-- C4 (amended): the `matching_engine.py` run has no ambiguity policy.
Whenever at least one candidate scores at or above the 0.5 threshold, the
scan settles on a best-scoring candidate — ties go to the earlier candidate
in iteration order — and the run *creates a match* for the invoice (the run
summary has no ambiguous outcome at all).  (The claimed skip-and-report
behaviour is false — see the counterexample, where two candidates tie above
threshold and a match is still created.) -/
theorem c4_always_accepts (sim : Sim) (params : MatchingParameters)
    (efatura : Efatura) (banks : List BankMovement)
    (h : ∃ b ∈ banks, 1/2 ≤ (calculateMatchScore sim params efatura b).1) :
    ∃ bBest s crit,
      findBestSb sim params efatura banks = some (bBest, s, crit) ∧
      bBest ∈ banks ∧ 1/2 ≤ s ∧
      s = (calculateMatchScore sim params efatura bBest).1 ∧
      (∀ b' ∈ banks, (calculateMatchScore sim params efatura b').1 ≤ s) ∧
      ∀ acc : RunAcc, acc.banks = banks →
        (processInvoice sim params acc efatura).db.matchRows =
          acc.db.matchRows ++
            [{ id := acc.db.nextMatchId, efaturaId := efatura.id,
               bankMovementId := bBest.id, confidenceScore := s,
               matchMethod := if s < 95/100 then "fuzzy" else "exact",
               status := MatchStatus.proposed }] := by
  obtain ⟨b0, hb0, hs0⟩ := h
  have hmax := findBestSb_fold_max sim params efatura banks none
  rcases hmax.2 b0 hb0 with hlt | ⟨p, hp, _⟩
  · exact absurd hlt (not_lt.2 hs0)
  · obtain ⟨bBest, s, crit⟩ := p
    have hfb : findBestSb sim params efatura banks = some (bBest, s, crit) :=
      hp
    obtain ⟨hmem, hges, hseq⟩ := findBestSb_mem hfb
    refine ⟨bBest, s, crit, hfb, hmem, hges, hseq, ?_, ?_⟩
    · intro b' hb'
      rcases hmax.2 b' hb' with hlt' | ⟨p', hp', hle'⟩
      · exact le_trans (le_of_lt hlt') hges
      · have hpp : p' = (bBest, s, crit) :=
          Option.some.inj (hp'.symm.trans hfb)
        rw [hpp] at hle'
        exact hle'
    · intro acc hacc
      exact processInvoice_creates (by rw [hacc]; exact hfb)

theorem c4_witness :
    (∃ b ∈ [c4bm1, c4bm2],
      1/2 ≤ (calculateMatchScore simEq defaultParams c4ef b).1) ∧
    (∃ bBest s crit,
      findBestSb simEq defaultParams c4ef [c4bm1, c4bm2] =
        some (bBest, s, crit) ∧
      bBest ∈ [c4bm1, c4bm2] ∧ 1/2 ≤ s ∧
      s = (calculateMatchScore simEq defaultParams c4ef bBest).1 ∧
      (∀ b' ∈ [c4bm1, c4bm2],
        (calculateMatchScore simEq defaultParams c4ef b').1 ≤ s) ∧
      ∀ acc : RunAcc, acc.banks = [c4bm1, c4bm2] →
        (processInvoice simEq defaultParams acc c4ef).db.matchRows =
          acc.db.matchRows ++
            [{ id := acc.db.nextMatchId, efaturaId := c4ef.id,
               bankMovementId := bBest.id, confidenceScore := s,
               matchMethod := if s < 95/100 then "fuzzy" else "exact",
               status := MatchStatus.proposed }]) :=
  ⟨by with_unfolding_all decide,
   c4_always_accepts simEq defaultParams c4ef [c4bm1, c4bm2]
     (by with_unfolding_all decide)⟩

/-- C4, as stated, is false: on `c4db` the two candidates score identically
(0.9, within any ambiguity margin of each other, both above threshold), yet
the run creates a match for the invoice instead of skipping it, and its
summary reports one created match (it has no ambiguous outcome). -/
theorem c4_counterexample :
    (calculateMatchScore simEq defaultParams c4ef c4bm1).1 = 9/10 ∧
    (calculateMatchScore simEq defaultParams c4ef c4bm2).1 = 9/10 ∧
    ((1:ℚ)/2 ≤ 9/10) ∧
    (runMatchingProcess simEq defaultParams c4db).2 = 1 ∧
    (runMatchingProcess simEq defaultParams c4db).1.matchRows.map
      (fun m => (m.efaturaId, m.bankMovementId)) = [(1, 1)] := by
  with_unfolding_all decide

/-- C5 (confirmed): rejecting an existing proposed-or-confirmed match — and
likewise deleting it — sets both linked records' statuses back to
`unmatched`, so both satisfy the unmatched-only filters that select the
candidates of a subsequent run. -/
theorem c5_reject_delete_cascade (db : DB) (mid : Nat) (m : MatchRec)
    (hfind : db.matchRows.find? (fun r => r.id = mid) = some m)
    (_hst : m.status = MatchStatus.proposed ∨
      m.status = MatchStatus.confirmed) :
    (∃ db', rejectMatch db mid = Except.ok db' ∧
      (∀ e ∈ db'.efaturas, e.id = m.efaturaId →
        e.status = RecStatus.unmatched) ∧
      (∀ b ∈ db'.bankMovements, b.id = m.bankMovementId →
        b.status = RecStatus.unmatched) ∧
      (∀ e ∈ db'.efaturas, e.id = m.efaturaId →
        e ∈ db'.efaturas.filter (fun x => x.status = RecStatus.unmatched)) ∧
      (∀ b ∈ db'.bankMovements, b.id = m.bankMovementId →
        b ∈ db'.bankMovements.filter
          (fun x => x.status = RecStatus.unmatched))) ∧
    (∃ db', deleteMatch db mid = Except.ok db' ∧
      (∀ e ∈ db'.efaturas, e.id = m.efaturaId →
        e.status = RecStatus.unmatched) ∧
      (∀ b ∈ db'.bankMovements, b.id = m.bankMovementId →
        b.status = RecStatus.unmatched) ∧
      (∀ e ∈ db'.efaturas, e.id = m.efaturaId →
        e ∈ db'.efaturas.filter (fun x => x.status = RecStatus.unmatched)) ∧
      (∀ b ∈ db'.bankMovements, b.id = m.bankMovementId →
        b ∈ db'.bankMovements.filter
          (fun x => x.status = RecStatus.unmatched))) := by
  constructor
  · refine ⟨_, rejectMatch_eq hfind, ?_, ?_, ?_, ?_⟩
    · intro e he heid
      exact setEfaturaStatus_target he heid
    · intro b hb hbid
      exact setBankStatus_target hb hbid
    · intro e he heid
      exact List.mem_filter.2 ⟨he, by simp [setEfaturaStatus_target he heid]⟩
    · intro b hb hbid
      exact List.mem_filter.2 ⟨hb, by simp [setBankStatus_target hb hbid]⟩
  · refine ⟨_, deleteMatch_eq hfind, ?_, ?_, ?_, ?_⟩
    · intro e he heid
      exact setEfaturaStatus_target he heid
    · intro b hb hbid
      exact setBankStatus_target hb hbid
    · intro e he heid
      exact List.mem_filter.2 ⟨he, by simp [setEfaturaStatus_target he heid]⟩
    · intro b hb hbid
      exact List.mem_filter.2 ⟨hb, by simp [setBankStatus_target hb hbid]⟩

theorem c5_witness :
    (c5db.matchRows.find? (fun r => r.id = 0) = some c5match) ∧
    (c5match.status = MatchStatus.proposed ∨
      c5match.status = MatchStatus.confirmed) ∧
    (∃ db', rejectMatch c5db 0 = Except.ok db' ∧
      (∀ e ∈ db'.efaturas, e.id = c5match.efaturaId →
        e.status = RecStatus.unmatched) ∧
      (∀ b ∈ db'.bankMovements, b.id = c5match.bankMovementId →
        b.status = RecStatus.unmatched) ∧
      (∀ e ∈ db'.efaturas, e.id = c5match.efaturaId →
        e ∈ db'.efaturas.filter (fun x => x.status = RecStatus.unmatched)) ∧
      (∀ b ∈ db'.bankMovements, b.id = c5match.bankMovementId →
        b ∈ db'.bankMovements.filter
          (fun x => x.status = RecStatus.unmatched))) :=
  ⟨by with_unfolding_all decide, by with_unfolding_all decide,
   (c5_reject_delete_cascade c5db 0 c5match (by with_unfolding_all decide)
     (by with_unfolding_all decide)).1⟩

/-- C6 (amended): manual match creation succeeds exactly when both records
exist with status `unmatched` (otherwise the handler raises an HTTP *404* —
not a 409 conflict — before any write, so failure changes no state); on
success the created match row carries the pair's engine-*computed* score as
its confidence and the method `'automatic'`/`'suggested'` by the 0.8
threshold.  (The claimed fixed confidence 1.0 and method `'manual'` are
false — see the counterexample.) -/
theorem c6_manual_match (db : DB) (eid bid : Nat) :
    ((∃ r, createManualMatch db eid bid = Except.ok r) ↔
      ((∃ e ∈ db.efaturas, e.id = eid ∧ e.status = RecStatus.unmatched) ∧
       (∃ b ∈ db.bankMovements, b.id = bid ∧
         b.status = RecStatus.unmatched))) ∧
    (∀ db' mid, createManualMatch db eid bid = Except.ok (db', mid) →
      ∃ e b,
        db.efaturas.find?
          (fun x => x.id = eid ∧ x.status = RecStatus.unmatched) = some e ∧
        db.bankMovements.find?
          (fun x => x.id = bid ∧ x.status = RecStatus.unmatched) = some b ∧
        ∃ mNew ∈ db'.matchRows, mNew.id = mid ∧ mNew.efaturaId = eid ∧
          mNew.bankMovementId = bid ∧
          mNew.confidenceScore = sqliteCalculateMatchScore 3 (1/100) e b ∧
          mNew.matchMethod =
            (if sqliteCalculateMatchScore 3 (1/100) e b ≥ 8/10
              then "automatic" else "suggested")) := by
  constructor
  · exact createManualMatch_ok_iff db eid bid
  · intro db' mid hok
    obtain ⟨e, b, hfe, hfb, hmid, hdb'⟩ := createManualMatch_ok_fields hok
    refine ⟨e, b, hfe, hfb, ?_⟩
    refine ⟨{ id := db.nextMatchId
              efaturaId := eid
              bankMovementId := bid
              confidenceScore := sqliteCalculateMatchScore 3 (1/100) e b
              matchMethod := (if sqliteCalculateMatchScore 3 (1/100) e b ≥ 8/10 then "automatic" else "suggested")
              status := MatchStatus.proposed },
      ?_, by rw [hmid], rfl, rfl, rfl, rfl⟩
    rw [hdb']
    dsimp only [createAndMark]
    exact List.mem_append_right _ (List.mem_singleton.2 rfl)

theorem c6_witness :
    ∃ r, createManualMatch c6db 1 1 = Except.ok r :=
  (c6_manual_match c6db 1 1).1.2
    ⟨by with_unfolding_all decide, by with_unfolding_all decide⟩

/-- C6, as stated, is false: the successful manual match on `c6db` stores
the computed confidence 0.8 (not 1.0) and the method `'automatic'` (never
`'manual'`). -/
theorem c6_counterexample :
    (createManualMatch c6db 1 1).toOption.map
      (fun r => r.1.matchRows.map
        (fun m => (m.confidenceScore, m.matchMethod))) =
      some [((4:ℚ)/5, "automatic")] ∧
    ¬ ((4:ℚ)/5 = 1) ∧ ¬ ("automatic" = "manual") := by
  with_unfolding_all decide

/-- C7 (amended): the candidate list of `find_potential_matches` is sorted
by absolute *date* difference first, then relative amount difference (there
is no id tie-break); every returned movement is an unmatched stored row
lying in both the date window and the signed-amount window, the list never
exceeds 10 rows (`LIMIT 10`), and it contains *every* unmatched in-window
movement only when at most 10 movements qualify.  (The claimed
amount-first ordering and unconditional completeness are false — see the
counterexample.) -/
theorem c7_candidate_order (tolDays : ℤ) (tolPct : ℚ) (db : DB) (eid : Nat)
    (efatura : Efatura)
    (hfind : db.efaturas.find? (fun x => x.id = eid) = some efatura) :
    (findPotentialMatches tolDays tolPct db eid).Pairwise
      (fun a b => sqliteCandLE efatura a b = true) ∧
    (∀ b ∈ findPotentialMatches tolDays tolPct db eid,
      b ∈ db.bankMovements ∧ b.status = RecStatus.unmatched ∧
      efatura.documentDate - tolDays ≤ b.movementDate ∧
      b.movementDate ≤ efatura.documentDate + tolDays ∧
      efatura.totalAmount * (1 - tolPct) ≤ b.amount ∧
      b.amount ≤ efatura.totalAmount * (1 + tolPct)) ∧
    (findPotentialMatches tolDays tolPct db eid).length ≤ 10 ∧
    ((db.bankMovements.filter (fun bm =>
        efatura.documentDate - tolDays ≤ bm.movementDate ∧
        bm.movementDate ≤ efatura.documentDate + tolDays ∧
        efatura.totalAmount * (1 - tolPct) ≤ bm.amount ∧
        bm.amount ≤ efatura.totalAmount * (1 + tolPct) ∧
        bm.status = .unmatched)).length ≤ 10 →
      ∀ b ∈ db.bankMovements.filter (fun bm =>
        efatura.documentDate - tolDays ≤ bm.movementDate ∧
        bm.movementDate ≤ efatura.documentDate + tolDays ∧
        efatura.totalAmount * (1 - tolPct) ≤ bm.amount ∧
        bm.amount ≤ efatura.totalAmount * (1 + tolPct) ∧
        bm.status = .unmatched),
        b ∈ findPotentialMatches tolDays tolPct db eid) := by
  have heq := @findPotentialMatches_eq tolDays tolPct db eid efatura hfind
  refine ⟨?_, ?_, ?_, ?_⟩
  · rw [heq]
    exact List.Pairwise.sublist (List.take_sublist _ _)
      (List.sorted_mergeSort (sqliteCandLE_trans efatura)
        (sqliteCandLE_total efatura) _)
  · intro b hb
    exact mem_findPotentialMatches_full hfind hb
  · rw [heq]
    exact List.length_take_le _ _
  · intro hlen b hbf
    rw [heq]
    have hperm := List.mergeSort_perm
      (db.bankMovements.filter (fun bm =>
        efatura.documentDate - tolDays ≤ bm.movementDate ∧
        bm.movementDate ≤ efatura.documentDate + tolDays ∧
        efatura.totalAmount * (1 - tolPct) ≤ bm.amount ∧
        bm.amount ≤ efatura.totalAmount * (1 + tolPct) ∧
        bm.status = .unmatched)) (sqliteCandLE efatura)
    have hlen2 : ((db.bankMovements.filter (fun bm =>
        efatura.documentDate - tolDays ≤ bm.movementDate ∧
        bm.movementDate ≤ efatura.documentDate + tolDays ∧
        efatura.totalAmount * (1 - tolPct) ≤ bm.amount ∧
        bm.amount ≤ efatura.totalAmount * (1 + tolPct) ∧
        bm.status = .unmatched)).mergeSort
          (sqliteCandLE efatura)).length ≤ 10 := by
      rw [hperm.length_eq]
      exact hlen
    rw [List.take_of_length_le hlen2]
    exact hperm.mem_iff.2 hbf

theorem c7_witness :
    (findPotentialMatches 3 (1/100) c7db 1).Pairwise
      (fun a b => sqliteCandLE c7ef a b = true) :=
  (c7_candidate_order 3 (1/100) c7db 1 c7ef
    (by with_unfolding_all decide)).1

/-- C7, as stated, is false: on `c7db` the returned list is `[2, 1]`
(movement 2 has date difference 0 but the larger amount difference), which
is not sorted by amount difference ascending. -/
theorem c7_counterexample :
    ¬ (findPotentialMatches 3 (1/100) c7db 1).Pairwise
      (fun a b => specCandLE c7ef a b = true) ∧
    (findPotentialMatches 3 (1/100) c7db 1).map (fun b => b.id) = [2, 1] := by
  with_unfolding_all decide

/-- C8 (amended): the description term of
`matching_engine.calculate_match_score` is *gated* by
`description_matched`: the final score includes `0.2 × similarity` exactly
when `similarity ≥ description_min_similarity` and nothing otherwise, and
the recorded boolean coincides with that gate.  Stated here by comparison
with `calculateMatchScoreSpecC8`, the scorer written from the spec's words
(unconditional contribution): the two agree exactly up to the gated term.
(The claimed unconditional contribution is false — see the
counterexample.) -/
theorem c8_description_gate (sim : Sim) (params : MatchingParameters)
    (efatura : Efatura) (bank : BankMovement) :
    calculateMatchScoreSpecC8 sim params efatura bank =
      (calculateMatchScore sim params efatura bank).1 +
        (if params.descriptionMinSimilarity ≤ descSimilarity sim efatura bank
          then 0
          else 2/10 * descSimilarity sim efatura bank) ∧
    ((calculateMatchScore sim params efatura bank).2.descriptionMatched =
        true ↔
      params.descriptionMinSimilarity ≤ descSimilarity sim efatura bank) := by
  unfold calculateMatchScore calculateMatchScoreSpecC8
  dsimp only
  constructor
  · rw [if_pos (show (0:ℚ) < 3/10 + 4/10 + 2/10 + 1/10 by norm_num)]
    have hone : (3:ℚ)/10 + 4/10 + 2/10 + 1/10 = 1 := by norm_num
    rw [hone, div_one, div_one]
    by_cases hgate :
        params.descriptionMinSimilarity ≤ descSimilarity sim efatura bank
    · simp only [ge_iff_le, hgate, decide_True, if_true]
      ring
    · simp only [ge_iff_le, hgate, decide_False, Bool.false_eq_true,
        if_false]
      ring
  · simp [ge_iff_le]

/-- C8, as stated, is false: at similarity 0.4 below the default 0.7
threshold the code's score is 0.7 (description term dropped) while the
spec's unconditional formula gives 0.78, and the recorded
`description_matched` is the very boolean that gated the term. -/
theorem c8_counterexample :
    (calculateMatchScore simPoint4 defaultParams c8ef c8bm).1 = 7/10 ∧
    calculateMatchScoreSpecC8 simPoint4 defaultParams c8ef c8bm = 39/50 ∧
    ¬ ((7:ℚ)/10 = 39/50) ∧
    (calculateMatchScore simPoint4 defaultParams c8ef c8bm).2.descriptionMatched
      = false ∧
    descSimilarity simPoint4 c8ef c8bm = 2/5 := by
  with_unfolding_all decide

/-- C9 (amended): the automatic runs, manual creation, confirm and reject
never remove a match row — the stored match ids only grow, and reject only
flags the status — but the delete endpoint *physically deletes* the row, so
across sequences including delete the set of match ids can shrink.  (The
claimed global append-only property is false — see the counterexample.) -/
theorem c9_append_only (db : DB) :
    (∀ (sim : Sim) (params : MatchingParameters) mid,
      mid ∈ db.matchRows.map (fun r => r.id) →
      mid ∈ (runMatchingProcess sim params db).1.matchRows.map
        (fun r => r.id)) ∧
    (∀ mid, mid ∈ db.matchRows.map (fun r => r.id) →
      mid ∈ (autoMatchAll db).1.matchRows.map (fun r => r.id)) ∧
    (∀ eid bid db' newId,
      createManualMatch db eid bid = Except.ok (db', newId) →
      ∀ mid, mid ∈ db.matchRows.map (fun r => r.id) →
        mid ∈ db'.matchRows.map (fun r => r.id)) ∧
    (∀ mid0 db', confirmMatch db mid0 = Except.ok db' →
      db'.matchRows.map (fun r => r.id) =
        db.matchRows.map (fun r => r.id)) ∧
    (∀ mid0 db', rejectMatch db mid0 = Except.ok db' →
      db'.matchRows.map (fun r => r.id) =
        db.matchRows.map (fun r => r.id)) := by
  refine ⟨?_, ?_, ?_, ?_, ?_⟩
  · intro sim params mid hmid
    rcases List.mem_map.1 hmid with ⟨r, hr, rfl⟩
    exact List.mem_map.2 ⟨r, runMatchingProcess_mono r hr, rfl⟩
  · intro mid hmid
    rcases List.mem_map.1 hmid with ⟨r, hr, rfl⟩
    exact List.mem_map.2 ⟨r, autoMatchAll_mono r hr, rfl⟩
  · intro eid bid db' newId hok mid hmid
    rcases List.mem_map.1 hmid with ⟨r, hr, rfl⟩
    exact List.mem_map.2 ⟨r, createManualMatch_mono hok r hr, rfl⟩
  · intro mid0 db' hok
    exact confirmMatch_ids hok
  · intro mid0 db' hok
    exact rejectMatch_ids hok

theorem c9_witness :
    (0 : Nat) ∈ (autoMatchAll c9db).1.matchRows.map (fun r => r.id) :=
  (c9_append_only c9db).2.1 0 (by with_unfolding_all decide)

/-- C9, as stated, is false: deleting match 0 on `c9db` removes the row
entirely — the store afterwards holds no match rows at all. -/
theorem c9_counterexample :
    (deleteMatch c9db 0).toOption.map (fun d => d.matchRows) = some [] ∧
    c9db.matchRows.map (fun r => r.id) = [0] := by
  with_unfolding_all decide

/-- C10 (confirmed): `create_match` marks both linked records `matched`
regardless of the confidence score — the created row's method is
`'suggested'` below 0.8 and `'automatic'` otherwise, but the status updates
are identical — so the records drop out of the unmatched-only filters of
`auto_match_all` and of `find_potential_matches` for every anchor, until a
reject or delete resets them. -/
theorem c10_create_marks_matched (db : DB) (eid bid : Nat) (score : ℚ) :
    (∀ e ∈ (sqliteCreateMatch db eid bid score).1.efaturas,
      e.id = eid → e.status = RecStatus.matched) ∧
    (∀ b ∈ (sqliteCreateMatch db eid bid score).1.bankMovements,
      b.id = bid → b.status = RecStatus.matched) ∧
    (∃ m ∈ (sqliteCreateMatch db eid bid score).1.matchRows,
      m.efaturaId = eid ∧ m.bankMovementId = bid ∧
      m.confidenceScore = score ∧
      m.matchMethod = (if score ≥ 8/10 then "automatic" else "suggested") ∧
      m.status = MatchStatus.proposed) ∧
    (∀ e ∈ (sqliteCreateMatch db eid bid score).1.efaturas.filter
        (fun x => x.status = RecStatus.unmatched), e.id ≠ eid) ∧
    (∀ anchor : Nat, ∀ b ∈ findPotentialMatches 3 (1/100)
        (sqliteCreateMatch db eid bid score).1 anchor, b.id ≠ bid) := by
  refine ⟨?_, ?_, ?_, ?_, ?_⟩
  · intro e he heid
    exact setEfaturaStatus_target he heid
  · intro b hb hbid
    exact setBankStatus_target hb hbid
  · refine ⟨{ id := db.nextMatchId
              efaturaId := eid
              bankMovementId := bid
              confidenceScore := score
              matchMethod := (if score ≥ 8/10 then "automatic"
                else "suggested")
              status := MatchStatus.proposed },
      ?_, rfl, rfl, rfl, rfl, rfl⟩
    dsimp only [sqliteCreateMatch, createAndMark]
    exact List.mem_append_right _ (List.mem_singleton.2 rfl)
  · intro e he heid
    have hf := List.mem_filter.1 he
    have hst : e.status = RecStatus.unmatched := by simpa using hf.2
    have hmat := setEfaturaStatus_target hf.1 heid
    rw [hmat] at hst
    cases hst
  · intro anchor b hb hbid
    obtain ⟨hbm, hbst⟩ := mem_findPotentialMatches hb
    have hmat := setBankStatus_target hbm hbid
    rw [hmat] at hbst
    cases hbst

theorem c10_witness :
    ∃ m ∈ (sqliteCreateMatch c10db 1 1 (6/10)).1.matchRows,
      m.efaturaId = 1 ∧ m.bankMovementId = 1 ∧
      m.confidenceScore = 6/10 ∧
      m.matchMethod = (if (6:ℚ)/10 ≥ 8/10 then "automatic"
        else "suggested") ∧
      m.status = MatchStatus.proposed :=
  (c10_create_marks_matched c10db 1 1 (6/10)).2.2.1

end Conciliador
